import Mathlib

/-!
Verification development for the local-runtime gateway
(services/local-runtime-suite/python/local_runtime).

Shallow embedding of the components referenced by the checked claims:
readiness tracker, platform-aware selection strategy, model registry
preload, model-load job manager, startup self-test, and the structured
output pipeline (canonicalization, minimal JSON repair, strict schema
rewrite, validation fragment, enforcement retry loop), plus a small
heap model used to state the frame property of the strict-schema
rewrite.

Conventions:
- Python dicts become association lists in insertion order (setting an
  existing key updates it in place, a new key is appended at the end);
- wall-clock timestamps and durations carried by the code are not
  modelled (they never influence control flow);
- machine floats appear only as scores built from integer constants, so
  they are embedded as Int (every operation performed on them by the
  code is exact on integers);
- fallible code returns Option/Except; where Python recursion has no
  structural measure the embedding takes explicit fuel, and theorems
  about such functions either evaluate them on concrete inputs or take
  the successful run as a hypothesis.
-/

namespace LocalRuntime

/-! ## JSON values (Python dict/list/str/int/bool/None as handled by json.loads) -/

/-- JSON value. Object fields are kept in insertion order, as Python
dicts do. Numbers are embedded as integers: no claim exercises
fractional literals, and binary-float rounding is outside the embedding
(the parser below rejects fractional syntax rather than misrepresent
it). -/
inductive Json where
  | null : Json
  | bool (b : Bool) : Json
  | num (n : Int) : Json
  | str (s : String) : Json
  | arr (elems : List Json) : Json
  | obj (fields : List (String × Json)) : Json

namespace Json

/-- Python dict lookup (`d.get(k)`): first (= unique) matching key. -/
def lookup (fields : List (String × Json)) (k : String) : Option Json :=
  match fields with
  | [] => none
  | (k', v) :: rest => if k' = k then some v else lookup rest k

/-- Python `k in d`. -/
def containsKey (fields : List (String × Json)) (k : String) : Bool :=
  match fields with
  | [] => false
  | (k', _) :: rest => if k' = k then true else containsKey rest k

/-- Python `d[k] = v`: update in place when the key exists (keeping its
position), append at the end otherwise. -/
def dictSet (fields : List (String × Json)) (k : String) (v : Json) : List (String × Json) :=
  match fields with
  | [] => [(k, v)]
  | (k', v') :: rest => if k' = k then (k', v) :: rest else (k', v') :: dictSet rest k v

/-- Python `d.setdefault(k, v)`. -/
def dictSetDefault (fields : List (String × Json)) (k : String) (v : Json) : List (String × Json) :=
  if containsKey fields k then fields else fields ++ [(k, v)]

end Json

/-! ## Readiness tracker (core/readiness.py)

`CheckResult.duration_ms` and the wall-clock timestamps of
`SelfTestState` are omitted: they are opaque floats that never influence
any status transition. -/

/-- core/readiness.py CheckResult (name, status, detail). -/
structure CheckResult where
  name : String
  status : String
  detail : Option String
  deriving Repr, DecidableEq

/-- core/readiness.py SelfTestState (status + ordered checks). -/
structure SelfTestState where
  status : String
  checks : List CheckResult
  deriving Repr, DecidableEq

/-- core/readiness.py ReadinessTracker instance state. -/
structure ReadinessState where
  status : String
  startup_checks : List CheckResult
  self_test : SelfTestState
  defaults : List (String × String)
  platform_id : Option String
  loaded_models : List String
  last_error : Option String
  deriving Repr, DecidableEq

namespace ReadinessState

/-- ReadinessTracker.__init__. -/
def init : ReadinessState :=
  { status := "starting"
    startup_checks := []
    self_test := { status := "pending", checks := [] }
    defaults := []
    platform_id := none
    loaded_models := []
    last_error := none }

/-- Python `detail or name` (falsy detail, i.e. None or "", falls back to name). -/
def detailOr (detail : Option String) (name : String) : String :=
  match detail with
  | none => name
  | some d => if d = "" then name else d

/-- ReadinessTracker.mark_phase. -/
def mark_phase (r : ReadinessState) (name status : String) (detail : Option String) : ReadinessState :=
  let r := { r with startup_checks := r.startup_checks ++ [⟨name, status, detail⟩] }
  if status = "error" then
    { r with status := "error", last_error := some (detailOr detail name) }
  else if status = "degraded" ∧ r.status ≠ "error" then
    { r with status := "degraded" }
  else r

/-- ReadinessTracker.mark_ready. -/
def mark_ready (r : ReadinessState) : ReadinessState :=
  if r.status ≠ "error" then { r with status := "ready" } else r

/-- ReadinessTracker.mark_degraded. -/
def mark_degraded (r : ReadinessState) (reason : Option String) : ReadinessState :=
  if r.status ≠ "error" then
    { r with status := "degraded"
             last_error := match reason with
                           | some s => if s = "" then r.last_error else some s
                           | none => r.last_error }
  else r

/-- ReadinessTracker.mark_error. -/
def mark_error (r : ReadinessState) (reason : String) : ReadinessState :=
  { r with status := "error", last_error := some reason }

/-- ReadinessTracker.begin_self_test. -/
def begin_self_test (r : ReadinessState) : ReadinessState :=
  { r with self_test := { status := "running", checks := [] } }

/-- ReadinessTracker.record_self_test_check. -/
def record_self_test_check (r : ReadinessState) (name status : String) (detail : Option String) : ReadinessState :=
  { r with self_test := { r.self_test with checks := r.self_test.checks ++ [⟨name, status, detail⟩] } }

/-- ReadinessTracker.finish_self_test. -/
def finish_self_test (r : ReadinessState) (status : String) : ReadinessState :=
  let r := { r with self_test := { r.self_test with status := status } }
  if status = "ok" then r.mark_ready
  else if status = "degraded" then r.mark_degraded (some ("self_test_failed"))
  else if status = "error" then r.mark_error ("self_test_failed")
  else r

end ReadinessState

/-- The public mutating calls of ReadinessTracker, as a syntax of
operations so that claims can quantify over call sequences. -/
inductive ReadinessOp where
  | markPhase (name status : String) (detail : Option String)
  | markReady
  | markDegraded (reason : Option String)
  | markError (reason : String)
  | beginSelfTest
  | recordSelfTestCheck (name status : String) (detail : Option String)
  | finishSelfTest (status : String)
  deriving Repr, DecidableEq

/-- Interpret one tracker call. -/
def readinessStep (r : ReadinessState) : ReadinessOp → ReadinessState
  | .markPhase n s d => r.mark_phase n s d
  | .markReady => r.mark_ready
  | .markDegraded reason => r.mark_degraded reason
  | .markError reason => r.mark_error reason
  | .beginSelfTest => r.begin_self_test
  | .recordSelfTestCheck n s d => r.record_self_test_check n s d
  | .finishSelfTest s => r.finish_self_test s

/-- Interpret a sequence of tracker calls. -/
def readinessRun (r : ReadinessState) (ops : List ReadinessOp) : ReadinessState :=
  ops.foldl readinessStep r

/-! ## Model specs and the selection strategy (spec.py, core/selector.py)

Only the spec fields read by SelectionStrategy and the self-test are
embedded; display metadata, limits, launch descriptors etc. are never
consulted by the claims. -/

/-- spec.py ApiInfo fragment used by selection and self-test. -/
structure ApiInfo where
  endpoint : String
  advertised_model_name : Option String
  supports_stream : Bool
  deriving Repr, DecidableEq

/-- spec.py CompatInfo fragment: platform allow-list and integer priority. -/
structure CompatInfo where
  platforms : List String
  priority : Int
  deriving Repr, DecidableEq

/-- spec.py BackendInfo fragment: provider tag. -/
structure BackendInfo where
  provider : String
  deriving Repr, DecidableEq

/-- spec.py ExecutionInfo fragment: execution mode. -/
structure ExecutionInfo where
  mode : String
  deriving Repr, DecidableEq

/-- The ModelSpec fields consulted by SelectionStrategy. -/
structure ModelSpec where
  id : String
  api : ApiInfo
  compat : CompatInfo
  backend : BackendInfo
  execution : ExecutionInfo
  deriving Repr, DecidableEq

/-- core/loader.py LoadedModel, restricted to its spec (the module
reference is modelled separately where a claim needs hooks or run). -/
structure LoadedModel where
  spec : ModelSpec
  deriving Repr, DecidableEq

/-- core/selector.py is_platform_supported. -/
def is_platform_supported (spec : ModelSpec) (platform_id : String) : Bool :=
  spec.compat.platforms.contains platform_id

namespace SelectionStrategy

/-- SelectionStrategy._score. The Python function returns float, but
every summand is an integer literal added to the integer priority, so
all arithmetic is exact and Int embeds it faithfully. The two
sequential in-place additions (+5 in-process, +2 trusted provider) are
written as one sum. -/
def score (platform_id : String) (model : LoadedModel) : Int :=
  (if platform_id = "darwin-arm64" ∧ model.spec.backend.provider = "mlx" then
      model.spec.compat.priority + 25
   else if platform_id ≠ "darwin-arm64" ∧ model.spec.backend.provider = "mlx" then
      model.spec.compat.priority - 20
   else model.spec.compat.priority)
  + (if model.spec.execution.mode = "inprocess" then 5 else 0)
  + (if model.spec.backend.provider ∈ ["hf", "kokoro", "faster_whisper", "ollama", "chatterbox"]
     then 2 else 0)

/-- The candidate filter at the top of SelectionStrategy.select:
endpoint match plus hard platform filter. -/
def candidatesFor (platform_id : String) (models : List LoadedModel) (endpoint : String) :
    List LoadedModel :=
  models.filter (fun m =>
    m.spec.api.endpoint == endpoint && is_platform_supported m.spec platform_id)

/-- Python max(xs, key=k): first element with maximal key (a later
element replaces the running best only when strictly greater). -/
def pyMaxBy (key : LoadedModel → Int) (x : LoadedModel) (xs : List LoadedModel) : LoadedModel :=
  xs.foldl (fun best m => if key m > key best then m else best) x

/-- The scoring branch of SelectionStrategy.select (no requested id). -/
def selectDefault (platform_id : String) (candidates : List LoadedModel) :
    Except String LoadedModel :=
  match candidates with
  | [] => .error ("ModelNotFoundError: no models available")
  | c :: cs => .ok (pyMaxBy (score platform_id) c cs)

/-- SelectionStrategy.select. A requested id that is None or "" is
falsy in Python (`if requested:`) and falls through to scoring. -/
def select (platform_id : String) (models : List LoadedModel) (endpoint : String)
    (requested : Option String) : Except String LoadedModel :=
  let candidates := candidatesFor platform_id models endpoint
  match requested with
  | some r =>
      if r ≠ "" then
        match candidates.find? (fun m =>
            m.spec.id == r || m.spec.api.advertised_model_name == some r) with
        | some m => .ok m
        | none => .error ("ModelNotFoundError: requested model not found")
      else selectDefault platform_id candidates
  | none => selectDefault platform_id candidates

end SelectionStrategy

/-! ## Registry preload (core/registry.py) and load manager (core/load_manager.py) -/

/-- Generic association-list lookup with Python-dict semantics (keys
are unique; first match). -/
def alistLookup {β : Type} (xs : List (String × β)) (k : String) : Option β :=
  match xs with
  | [] => none
  | (k', v) :: rest => if k' = k then some v else alistLookup rest k

/-- The per-model environment seen by ModelRegistry._preload_model:
catalog membership and the optional load/warmup hooks, with the
behaviour of each hook when invoked.  α is the (opaque) instance type.
load_hook: none = no hook; some none = hook present but raises;
some (some v) = hook present, returns instance v.
warmup_raises: none = no warmup hook; some b = hook present, raises iff b. -/
structure ModelEnv (α : Type) where
  in_catalog : Bool
  load_hook : Option (Option α)
  warmup_raises : Option Bool
  deriving Repr, DecidableEq

/-- A lifecycle-hook invocation, for tracing which hooks a call ran. -/
inductive HookCall (α : Type) where
  | load (model_id : String)
  | warmup (model_id : String) (inst : α)
  deriving Repr, DecidableEq

/-- Result of ModelRegistry._preload_model: Python return value (or a
propagated exception), the updated instance cache, and the hooks it
invoked, in order. -/
inductive PreloadOutcome where
  | ret (success : Bool)
  | raised
  deriving Repr, DecidableEq

structure PreloadResult (α : Type) where
  outcome : PreloadOutcome
  model_instances : List (String × α)
  calls : List (HookCall α)
  deriving Repr, DecidableEq

/-- ModelRegistry._preload_model (preload_model is a direct wrapper):
unknown id → False; cached → True without touching hooks; no load hook
→ False; load raises → exception caught, False; else cache the fresh
instance, then run warmup when defined (a warmup exception
propagates). -/
def preload_model {α : Type} (env : String → ModelEnv α) (insts : List (String × α))
    (model_id : String) : PreloadResult α :=
  if (env model_id).in_catalog then
    match alistLookup insts model_id with
    | some _ => ⟨.ret true, insts, []⟩
    | none =>
      match (env model_id).load_hook with
      | none => ⟨.ret false, insts, []⟩
      | some none => ⟨.ret false, insts, [.load model_id]⟩
      | some (some v) =>
        match (env model_id).warmup_raises with
        | none => ⟨.ret true, insts ++ [(model_id, v)], [.load model_id]⟩
        | some false =>
            ⟨.ret true, insts ++ [(model_id, v)], [.load model_id, .warmup model_id v]⟩
        | some true =>
            ⟨.raised, insts ++ [(model_id, v)], [.load model_id, .warmup model_id v]⟩
  else ⟨.ret false, insts, []⟩

namespace ModelLoadManager

/-- list(dict.fromkeys(models)): deduplicate preserving first-seen order. -/
def dedupFirst (xs : List String) : List String :=
  xs.foldl (fun acc x => if x ∈ acc then acc else acc ++ [x]) []

/-- The status string _load_single records from the preload call:
True → "loaded", False → "skipped", exception → "error". -/
def statusOf : PreloadOutcome → String
  | .ret true => "loaded"
  | .ret false => "skipped"
  | .raised => "error"

/-- A finished ModelLoadJob: deduplicated target list, final per-model
statuses, aggregate status. -/
structure ModelLoadJob where
  models : List String
  statuses : List (String × String)
  status : String
  deriving Repr, DecidableEq

/-- The final per-model statuses of a job: one _load_single per
deduplicated target.  The fan-out tasks are independent and each
touches only its own key of the shared instance cache (targets are
distinct after dedup), so every interleaving yields the statuses
computed against the initial cache. -/
def jobStatuses {α : Type} (env : String → ModelEnv α) (insts : List (String × α))
    (models : List String) : List (String × String) :=
  (dedupFirst models).map (fun id => (id, statusOf (preload_model env insts id).outcome))

/-- create_job followed by the completed _run_job: dedupe targets, fan
out one load task per target, and aggregate "failed" iff some per-model
status is "error". -/
def create_job {α : Type} (env : String → ModelEnv α) (insts : List (String × α))
    (models : List String) : ModelLoadJob :=
  { models := dedupFirst models
    statuses := jobStatuses env insts models
    status :=
      if (jobStatuses env insts models).any (fun p => p.2 == "error") = true
      then "failed" else "completed" }

end ModelLoadManager

/-! ## Startup self-test (core/selftest.py)

The registry surface the self-test consults is: the (non)emptiness of
models_by_endpoint, get_loaded, spec.api.endpoint and
spec.api.supports_stream.  The outcome of invoking a backend and
shape-checking its result is abstracted by boolean oracles (true = the
check passed, false = the invocation/validation raised); every such
invocation happens inside a try/except that records a check, so no
backend failure escapes.  Check detail strings are abbreviated (no
claim reads them). -/

/-- The model attributes consulted by the self-test. -/
structure STModel where
  id : String
  endpoint : String
  supports_stream : Bool
  deriving Repr, DecidableEq

namespace SelfTest

/-- The endpoints _build_run_request supports; any other raises
ValueError, which the caller records as a skipped check. -/
def supportedEndpoint (ep : String) : Bool :=
  ep == "responses" || ep == "audio.speech" ||
  ep == "audio.transcriptions" || ep == "audio.translations"

/-- registry.get_loaded (spec ids are unique after catalog validation). -/
def get_loaded (models : List STModel) (model_id : String) : Option STModel :=
  models.find? (fun m => m.id == model_id)

/-- target_map.setdefault(endpoint, []).append(loaded): append to the
endpoint's group, creating it at the end on first sight. -/
def appendGroup (tm : List (String × List STModel)) (ep : String) (m : STModel) :
    List (String × List STModel) :=
  match tm with
  | [] => [(ep, [m])]
  | (k, ms) :: rest =>
      if k = ep then (k, ms ++ [m]) :: rest else (k, ms) :: appendGroup rest ep m

/-- The target_map construction loop: skip falsy model ids and ids not
in the registry. -/
def targetMap (models : List STModel) (defaults : List (String × String)) :
    List (String × List STModel) :=
  defaults.foldl (fun tm p =>
    if p.2 = "" then tm
    else
      match get_loaded models p.2 with
      | some m => appendGroup tm p.1 m
      | none => tm) []

/-- One non-streaming check: unsupported model endpoint → skipped
(ValueError from _build_run_request); else ok/error from the invoke +
shape validation (oracle keyed by the defaults-map endpoint, which
_validate_result receives, and the model id). -/
def stCheck (oracle : String → String → Bool) (ep : String) (m : STModel) : CheckResult :=
  if supportedEndpoint m.endpoint then
    if oracle ep m.id then ⟨ep ++ ":" ++ m.id, "ok", none⟩
    else ⟨ep ++ ":" ++ m.id, "error", some ("check failed")⟩
  else ⟨ep ++ ":" ++ m.id, "skipped", some ("unsupported endpoint")⟩

/-- The main per-endpoint check loop (each iteration records exactly
its own checks, so the loop is written as a concatenation). -/
def mainChecks (oracle : String → String → Bool) (tm : List (String × List STModel)) :
    List CheckResult :=
  tm.flatMap (fun g =>
    if g.2.isEmpty then [⟨g.1, "skipped", some ("no models configured")⟩]
    else g.2.map (stCheck oracle g.1))

/-- Streaming coverage target for an endpoint: the default model id,
when truthy, resolvable, and advertising stream support. -/
def streamTarget (models : List STModel) (defaults : List (String × String)) (ep : String) :
    Option STModel :=
  match alistLookup defaults ep with
  | none => none
  | some mid =>
      if mid = "" then none
      else
        match get_loaded models mid with
        | some m => if m.supports_stream then some m else none
        | none => none

/-- A streaming check result (milestone events present or not). -/
def streamCheck (name : String) (pass : Bool) : CheckResult :=
  if pass then ⟨name, "ok", none⟩ else ⟨name, "error", some ("stream check failed")⟩

/-- The streaming-coverage checks for responses. -/
def respStreamChecks (models : List STModel) (defaults : List (String × String))
    (streamResp : String → Bool) : List CheckResult :=
  match streamTarget models defaults ("responses") with
  | some m => [streamCheck ("responses_stream") (streamResp m.id)]
  | none => []

/-- The streaming-coverage checks for transcription. -/
def sttStreamChecks (models : List STModel) (defaults : List (String × String))
    (streamStt : String → Bool) : List CheckResult :=
  match streamTarget models defaults ("audio.transcriptions") with
  | some m => [streamCheck ("audio_transcriptions_stream") (streamStt m.id)]
  | none => []

/-- Result of run_startup_self_test: the updated readiness state and
whether the function raised (strict mode re-raises on failure). -/
structure SelfTestOutcome where
  readiness : ReadinessState
  raised : Bool
  deriving Repr, DecidableEq

/-- All checks one self-test run performs, in recording order: the
main per-endpoint loop, then responses streaming coverage, then
transcription streaming coverage. -/
def allChecksOf (models : List STModel) (defaults : List (String × String))
    (oracle : String → String → Bool) (streamResp streamStt : String → Bool) :
    List CheckResult :=
  mainChecks oracle (targetMap models defaults)
    ++ respStreamChecks models defaults streamResp
    ++ sttStreamChecks models defaults streamStt

/-- core/selftest.py run_startup_self_test.  `failed` is set exactly
when some check records status "error"; on a non-empty registry the
final status is "ok" unless failed, then "error" (strict) or
"degraded" (lenient); strict failure re-raises (`raised`). -/
def run_startup_self_test (models : List STModel) (defaults : List (String × String))
    (oracle : String → String → Bool) (streamResp streamStt : String → Bool)
    (strict : Bool) (r : ReadinessState) : SelfTestOutcome :=
  let r1 := r.begin_self_test
  if models.isEmpty then
    ⟨r1.finish_self_test (if strict then "error" else "degraded"), false⟩
  else
    let allChecks := allChecksOf models defaults oracle streamResp streamStt
    let failed := allChecks.any (fun c => c.status == "error")
    let r2 := allChecks.foldl (fun acc c => acc.record_self_test_check c.name c.status c.detail) r1
    let final := if failed then (if strict then "error" else "degraded") else "ok"
    ⟨r2.finish_self_test final, failed && strict⟩

/-- The names of the checks a self-test run records, computed from the
registry and defaults only — visibly independent of every check
outcome. -/
def expectedCheckNames (models : List STModel) (defaults : List (String × String)) :
    List String :=
  (targetMap models defaults).flatMap (fun g =>
    if g.2.isEmpty then [g.1] else g.2.map (fun m => g.1 ++ ":" ++ m.id))
  ++ (match streamTarget models defaults ("responses") with
      | some _ => ["responses_stream"]
      | none => [])
  ++ (match streamTarget models defaults ("audio.transcriptions") with
      | some _ => ["audio_transcriptions_stream"]
      | none => [])

end SelfTest

/-! ## Structured output helpers (helpers/structured_output.py)

String-level embedding of the canonicalization pipeline.  Python's
regexes are embedded as the deterministic scanners they denote on the
patterns in the file (ordered alternation with backtracking, non-greedy
bodies, lookahead), working on character lists.  Recursions without a
structural measure take fuel; every use below is on concrete strings
(or reached only after an earlier stage fails), and fuel bounds are
chosen generously. -/

/-- Python str.strip() whitespace (ASCII set; matches `\s` for the
ASCII inputs the claims exercise). -/
def pyWs (c : Char) : Bool :=
  c == ' ' || c == '\t' || c == '\n' || c == '\r' || c == '\x0b' || c == '\x0c'

def lstripChars (cs : List Char) : List Char := cs.dropWhile pyWs

def rstripChars (cs : List Char) : List Char := (cs.reverse.dropWhile pyWs).reverse

def stripChars (cs : List Char) : List Char := rstripChars (lstripChars cs)

/-- Python str.strip(). -/
def pyStrip (s : String) : String := ⟨stripChars s.data⟩

/-- Case-insensitive literal match at the head; returns the rest. -/
def matchLitCI (lit cs : List Char) : Option (List Char) :=
  match lit, cs with
  | [], rest => some rest
  | _ :: _, [] => none
  | l :: ls, c :: rest => if c.toLower = l.toLower then matchLitCI ls rest else none

/-- One alternation branch of THINKING_PATTERN's open tag: the literal
tag followed by whitespace and the closing angle bracket. -/
def matchTagThen (tag cs : List Char) : Option (List Char) :=
  (matchLitCI tag cs).bind (fun r =>
    match r.dropWhile pyWs with
    | '>' :: rest => some rest
    | _ => none)

/-- Match THINKING_PATTERN's opening group at the head of the input
(ordered alternation thinking|think with backtracking, IGNORECASE).
Returns the tag template (the backreference, IGNORECASE, must match it
case-insensitively) and the rest. -/
def matchThinkOpen (cs : List Char) : Option (List Char × List Char) :=
  match cs with
  | '<' :: r =>
      let r2 := r.dropWhile pyWs
      match matchTagThen ("thinking".data) r2 with
      | some rest => some (("thinking".data), rest)
      | none =>
          match matchTagThen ("think".data) r2 with
          | some rest => some (("think".data), rest)
          | none => none
  | _ => none

/-- Match THINKING_PATTERN's closing tag at the head. -/
def matchThinkClose (tag cs : List Char) : Option (List Char) :=
  match cs with
  | '<' :: r =>
      match r.dropWhile pyWs with
      | '/' :: r2 =>
          (matchLitCI tag (r2.dropWhile pyWs)).bind (fun r3 =>
            match r3.dropWhile pyWs with
            | '>' :: rest => some rest
            | _ => none)
      | _ => none
  | _ => none

/-- The non-greedy body `(.*?)` before the closing tag: take the
earliest position where the closing tag matches (DOTALL lets the body
span anything). -/
def findThinkClose (tag : List Char) : List Char → Option (List Char)
  | [] => none
  | c :: rest =>
      match matchThinkClose tag (c :: rest) with
      | some r => some r
      | none => findThinkClose tag rest

/-- THINKING_PATTERN.sub("", text): left-to-right scan, each match
removed, scanning resuming after it.  Fuel = input length (every step
consumes at least one character). -/
def thinkSubF : Nat → List Char → List Char
  | 0, cs => cs
  | _ + 1, [] => []
  | n + 1, c :: rest =>
      match matchThinkOpen (c :: rest) with
      | some (tag, afterOpen) =>
          match findThinkClose tag afterOpen with
          | some afterClose => thinkSubF n afterClose
          | none => c :: thinkSubF n rest
      | none => c :: thinkSubF n rest

def thinkSub (cs : List Char) : List Char := thinkSubF cs.length cs

/-- The backquote character (ASCII 96). -/
def backquoteChar : Char := Char.ofNat 96

/-- `[a-z0-9_-]` with IGNORECASE. -/
def fenceLangChar (c : Char) : Bool :=
  c.isAlpha || c.isDigit || c == '_' || c == '-'

/-- CODE_FENCE_START match+removal on an already-stripped string:
leading triple backquote, language id, trailing whitespace. -/
def stripFenceStart (cs : List Char) : Option (List Char) :=
  match cs with
  | c1 :: c2 :: c3 :: r =>
      if c1 = backquoteChar ∧ c2 = backquoteChar ∧ c3 = backquoteChar then
        some ((r.dropWhile fenceLangChar).dropWhile pyWs)
      else none
  | _ => none

/-- CODE_FENCE_END search+removal: on a string with no trailing
whitespace (both call sites pre-strip), the pattern matches exactly
when the string ends in a triple backquote; removal drops it and the
whitespace run before it. -/
def stripFenceEnd (cs : List Char) : Option (List Char) :=
  match cs.reverse with
  | c1 :: c2 :: c3 :: rest =>
      if c1 = backquoteChar ∧ c2 = backquoteChar ∧ c3 = backquoteChar then
        some ((rest.dropWhile pyWs).reverse)
      else none
  | _ => none

/-- helpers/structured_output.py _strip_code_fences. -/
def strip_code_fences (text : String) : String × Bool :=
  let trimmed := stripChars text.data
  let startRes :=
    match stripFenceStart trimmed with
    | some r => (r, true)
    | none => (trimmed, false)
  let endRes :=
    match stripFenceEnd startRes.1 with
    | some r => (r, true)
    | none => (startRes.1, false)
  (⟨stripChars endRes.1⟩, startRes.2 || endRes.2)

/-- helpers/structured_output.py strip_thinking. -/
def strip_thinking (text : String) : String :=
  if text = "" then ""
  else
    let cleaned : String := ⟨thinkSub text.data⟩
    let cleaned := pyStrip cleaned
    pyStrip (strip_code_fences cleaned).1

/-- Python str.find for a single character (None for -1). -/
def findIdxChar : List Char → Char → Option Nat
  | [], _ => none
  | x :: rest, c => if x = c then some 0 else (findIdxChar rest c).map (· + 1)

/-- Python str.rfind for a single character (None for -1). -/
def rfindIdxChar (cs : List Char) (c : Char) : Option Nat :=
  (findIdxChar cs.reverse c).map (fun i => cs.length - 1 - i)

/-- helpers/structured_output.py extract_json_region. -/
def extract_json_region (text : String) : String :=
  if text = "" then ""
  else
    let candidate := stripChars text.data
    match candidate.head?, candidate.getLast? with
    | some f, some l =>
        if (f = '\x7b' ∨ f = '[') ∧ (l = ']' ∨ l = '\x7d') then ⟨candidate⟩
        else
          let objSeg : Option (List Char) :=
            match findIdxChar candidate '\x7b', rfindIdxChar candidate '\x7d' with
            | some i, some j => if i < j then some ((candidate.drop i).take (j - i + 1)) else none
            | _, _ => none
          let arrSeg : Option (List Char) :=
            match findIdxChar candidate '[', rfindIdxChar candidate ']' with
            | some i, some j => if i < j then some ((candidate.drop i).take (j - i + 1)) else none
            | _, _ => none
          match objSeg, arrSeg with
          | some o, some a => if a.length > o.length then ⟨a⟩ else ⟨o⟩
          | some o, none => ⟨o⟩
          | none, some a => ⟨a⟩
          | none, none => ⟨candidate⟩
    | _, _ => ""

def closeOf (c : Char) : Char := if c = '\x7b' then '\x7d' else ']'

/-- The character scan of _autoclose_json: bracket stack (top at head),
string state, escape state.  Returns none on a mismatched closer, else
the final stack and string state. -/
def scanBrackets : List Char → List Char → Bool → Bool → Option (List Char × Bool)
  | [], stack, instr, _ => some (stack, instr)
  | c :: rest, stack, instr, esc =>
      if esc then scanBrackets rest stack instr false
      else if c = '\\' then scanBrackets rest stack instr instr
      else if c = '\"' then scanBrackets rest stack (!instr) false
      else if instr then scanBrackets rest stack instr false
      else if c = '\x7b' ∨ c = '[' then scanBrackets rest (c :: stack) instr false
      else if c = '\x7d' ∨ c = ']' then
        match stack with
        | t :: s' => if closeOf t = c then scanBrackets rest s' instr false else none
        | [] => none
      else scanBrackets rest stack instr false

/-- helpers/structured_output.py _autoclose_json. -/
def autoclose_json (candidate : String) : Option String :=
  if candidate = "" then none
  else
    match scanBrackets candidate.data [] false false with
    | none => none
    | some (stack, instr) =>
        if instr then none
        else if stack = [] then some candidate
        else some (candidate ++ ⟨stack.map closeOf⟩)

/-- TRAILING_COMMA_PATTERN.sub("", text): delete every comma (plus
following whitespace) standing directly before a closing brace or
bracket — string-unaware, exactly like the regex.  Fuel = length. -/
def stripTrailingCommasF : Nat → List Char → List Char
  | 0, cs => cs
  | _ + 1, [] => []
  | n + 1, c :: rest =>
      if c = ',' then
        match rest.dropWhile pyWs with
        | d :: after =>
            if d = '\x7d' ∨ d = ']' then stripTrailingCommasF n (d :: after)
            else c :: stripTrailingCommasF n rest
        | [] => c :: stripTrailingCommasF n rest
      else c :: stripTrailingCommasF n rest

def stripTrailingCommas (cs : List Char) : List Char := stripTrailingCommasF cs.length cs

/-- helpers/structured_output.py repair_json_minimal. -/
def repair_json_minimal (text : String) : Option String :=
  if text = "" then none
  else
    let trimmed := pyStrip text
    let fenceRes := strip_code_fences trimmed
    let repaired0 : String := ⟨stripTrailingCommas fenceRes.1.data⟩
    let acRes :=
      match autoclose_json repaired0 with
      | some ac => if ac ≠ "" ∧ ac ≠ repaired0 then (ac, true) else (repaired0, fenceRes.2)
      | none => (repaired0, fenceRes.2)
    if acRes.1 ≠ trimmed ∨ acRes.2 = true then some (pyStrip acRes.1) else none

/-! ### json.loads / json.dumps (the json collaborator, on the grammar
the code feeds it) -/

/-- JSON whitespace skipped by json.loads. -/
def jsonWs (c : Char) : Bool := c == ' ' || c == '\t' || c == '\n' || c == '\r'

def hexDigitVal (c : Char) : Option Nat :=
  if c.isDigit then some (c.toNat - 48)
  else if 'a' ≤ c ∧ c ≤ 'f' then some (c.toNat - 87)
  else if 'A' ≤ c ∧ c ≤ 'F' then some (c.toNat - 55)
  else none

/-- The body of a JSON string literal after the opening quote:
standard escapes and \uXXXX (lone-surrogate pairing unmodelled).
Returns the decoded content and the rest after the closing quote. -/
def parseStringBody : Nat → List Char → Option (List Char × List Char)
  | 0, _ => none
  | _ + 1, [] => none
  | n + 1, c :: rest =>
      if c = '\"' then some ([], rest)
      else if c = '\\' then
        match rest with
        | e :: r2 =>
            let esc : Option (Char × List Char) :=
              if e = '\"' then some ('\"', r2)
              else if e = '\\' then some ('\\', r2)
              else if e = '/' then some ('/', r2)
              else if e = 'b' then some ('\x08', r2)
              else if e = 'f' then some ('\x0c', r2)
              else if e = 'n' then some ('\n', r2)
              else if e = 'r' then some ('\r', r2)
              else if e = 't' then some ('\t', r2)
              else if e = 'u' then
                match r2 with
                | h1 :: h2 :: h3 :: h4 :: r3 =>
                    match hexDigitVal h1, hexDigitVal h2, hexDigitVal h3, hexDigitVal h4 with
                    | some v1, some v2, some v3, some v4 =>
                        some (Char.ofNat (((v1 * 16 + v2) * 16 + v3) * 16 + v4), r3)
                    | _, _, _, _ => none
                | _ => none
              else none
            match esc with
            | some (ch, r3) => (parseStringBody n r3).map (fun p => (ch :: p.1, p.2))
            | none => none
        | [] => none
      else if c.toNat < 32 then none
      else (parseStringBody n rest).map (fun p => (c :: p.1, p.2))

def digitsToNat (ds : List Char) : Nat :=
  ds.foldl (fun acc d => acc * 10 + (d.toNat - 48)) 0

/-- JSON number at the head of the input.  Fractional and exponent
forms are rejected rather than misrepresented as exact values
(binary-float rounding is outside the embedding; no claim feeds the
parser a float); json's NaN/Infinity extensions are likewise
unmodelled. -/
def parseNumber (cs : List Char) : Option (Int × List Char) :=
  let negSplit : Bool × List Char :=
    match cs with
    | '-' :: r => (true, r)
    | _ => (false, cs)
  let ds := negSplit.2.takeWhile Char.isDigit
  let rest := negSplit.2.dropWhile Char.isDigit
  if ds.isEmpty then none
  else if ds.length > 1 ∧ ds.head? = some '0' then none
  else
    let keep : Bool :=
      match rest with
      | c :: _ => ¬ (c = '.' ∨ c = 'e' ∨ c = 'E')
      | [] => true
    if keep then
      some ((if negSplit.1 then -(digitsToNat ds : Int) else (digitsToNat ds : Int)), rest)
    else none

mutual

/-- json.loads value parser (fuel-bounded). -/
def parseValue : Nat → List Char → Option (Json × List Char)
  | 0, _ => none
  | n + 1, cs =>
      match cs.dropWhile jsonWs with
      | [] => none
      | c :: rest =>
          if c = '\x7b' then
            match rest.dropWhile jsonWs with
            | '\x7d' :: r2 => some (Json.obj [], r2)
            | _ => (parseMembers n rest []).map (fun p => (Json.obj p.1, p.2))
          else if c = '[' then
            match rest.dropWhile jsonWs with
            | ']' :: r2 => some (Json.arr [], r2)
            | _ => (parseElems n rest []).map (fun p => (Json.arr p.1, p.2))
          else if c = 'n' then
            match rest with
            | 'u' :: 'l' :: 'l' :: r => some (Json.null, r)
            | _ => none
          else if c = 't' then
            match rest with
            | 'r' :: 'u' :: 'e' :: r => some (Json.bool true, r)
            | _ => none
          else if c = 'f' then
            match rest with
            | 'a' :: 'l' :: 's' :: 'e' :: r => some (Json.bool false, r)
            | _ => none
          else if c = '\"' then
            (parseStringBody (n + 1) rest).map (fun p => (Json.str ⟨p.1⟩, p.2))
          else
            (parseNumber (c :: rest)).map (fun p => (Json.num p.1, p.2))

/-- Object members; duplicate keys resolve as Python dicts do (last
value wins, first position kept). -/
def parseMembers : Nat → List Char → List (String × Json) →
    Option (List (String × Json) × List Char)
  | 0, _, _ => none
  | n + 1, cs, acc =>
      match cs.dropWhile jsonWs with
      | '\"' :: r =>
          (parseStringBody (n + 1) r).bind (fun pk =>
            match pk.2.dropWhile jsonWs with
            | ':' :: r3 =>
                (parseValue n r3).bind (fun pv =>
                  let acc' := Json.dictSet acc ⟨pk.1⟩ pv.1
                  match pv.2.dropWhile jsonWs with
                  | ',' :: r5 => parseMembers n r5 acc'
                  | '\x7d' :: r5 => some (acc', r5)
                  | _ => none)
            | _ => none)
      | _ => none

/-- Array elements. -/
def parseElems : Nat → List Char → List Json → Option (List Json × List Char)
  | 0, _, _ => none
  | n + 1, cs, acc =>
      (parseValue n cs).bind (fun pv =>
        match pv.2.dropWhile jsonWs with
        | ',' :: r2 => parseElems n r2 (acc ++ [pv.1])
        | ']' :: r2 => some (acc ++ [pv.1], r2)
        | _ => none)

end

/-- json.loads: parse one value, then require only whitespace to
remain. -/
def json_loads (s : String) : Option Json :=
  match parseValue (s.data.length + 16) s.data with
  | some (v, rest) => if rest.dropWhile jsonWs = [] then some v else none
  | none => none

def hexDigitChar (n : Nat) : Char :=
  if n < 10 then Char.ofNat (48 + n) else Char.ofNat (87 + n)

/-- json.dumps escaping for one character (ensure_ascii=False). -/
def escapeJsonChar (c : Char) : List Char :=
  if c = '\"' then ['\\', '\"']
  else if c = '\\' then ['\\', '\\']
  else if c = '\n' then ['\\', 'n']
  else if c = '\t' then ['\\', 't']
  else if c = '\r' then ['\\', 'r']
  else if c = '\x08' then ['\\', 'b']
  else if c = '\x0c' then ['\\', 'f']
  else if c.toNat < 32 then
    ['\\', 'u', '0', '0', hexDigitChar (c.toNat / 16), hexDigitChar (c.toNat % 16)]
  else [c]

def dumpStr (s : String) : String :=
  "\"" ++ ⟨s.data.flatMap escapeJsonChar⟩ ++ "\""

mutual

/-- json.dumps(value, ensure_ascii=False, separators=(",", ":")). -/
def dumpJson : Json → String
  | Json.null => "null"
  | Json.bool true => "true"
  | Json.bool false => "false"
  | Json.num n => toString n
  | Json.str s => dumpStr s
  | Json.arr es => "[" ++ dumpList es ++ "]"
  | Json.obj fs => "\x7b" ++ dumpFields fs ++ "\x7d"

def dumpList : List Json → String
  | [] => ""
  | [x] => dumpJson x
  | x :: y :: rest => dumpJson x ++ "," ++ dumpList (y :: rest)

def dumpFields : List (String × Json) → String
  | [] => ""
  | [kv] => dumpStr kv.1 ++ ":" ++ dumpJson kv.2
  | kv :: kv2 :: rest => dumpStr kv.1 ++ ":" ++ dumpJson kv.2 ++ "," ++ dumpFields (kv2 :: rest)

end

mutual

/-- Computable size of a JSON tree (an upper bound for nesting depth,
used as fuel for schema-directed recursions). -/
def jsonSize : Json → Nat
  | Json.null => 1
  | Json.bool _ => 1
  | Json.num _ => 1
  | Json.str _ => 1
  | Json.arr es => 1 + jsonSizeList es
  | Json.obj fs => 1 + jsonSizeFields fs

def jsonSizeList : List Json → Nat
  | [] => 0
  | x :: rest => jsonSize x + jsonSizeList rest

def jsonSizeFields : List (String × Json) → Nat
  | [] => 0
  | kv :: rest => jsonSize kv.2 + jsonSizeFields rest

end

/-- helpers/structured_output.py postprocess_to_json_text. -/
def postprocess_to_json_text (raw_text : String) : Except String (String × Json) :=
  let candidate := strip_thinking raw_text
  let candidate := extract_json_region candidate
  if candidate = "" then Except.error ("invalid_json: empty response")
  else
    match json_loads candidate with
    | some parsed => Except.ok (dumpJson parsed, parsed)
    | none =>
        match repair_json_minimal candidate with
        | none => Except.error ("invalid_json: parse_failed")
        | some repaired =>
            if repaired = "" then Except.error ("invalid_json: parse_failed")
            else
              match json_loads repaired with
              | some parsed => Except.ok (dumpJson parsed, parsed)
              | none => Except.error ("invalid_json: parse_failed")

/-! ### Schema validation fragment (the jsonschema collaborator) -/

/-- One Draft7 primitive-type test (booleans are not numbers, matching
jsonschema). -/
def typeMatches (t : String) (v : Json) : Bool :=
  if t = "object" then (match v with | Json.obj _ => true | _ => false)
  else if t = "array" then (match v with | Json.arr _ => true | _ => false)
  else if t = "string" then (match v with | Json.str _ => true | _ => false)
  else if t = "number" then (match v with | Json.num _ => true | _ => false)
  else if t = "integer" then (match v with | Json.num _ => true | _ => false)
  else if t = "boolean" then (match v with | Json.bool _ => true | _ => false)
  else if t = "null" then (match v with | Json.null => true | _ => false)
  else true

/-- Draft7 validation fragment covering the keywords the claims
exercise: type, required, properties, additionalProperties (boolean
form), items.  Returns one violation string per failure with the same
$-rooted path prefixes validate_against_schema builds; only the
count/emptiness of the list is consumed by any claim.  Fuel bounds
recursion through subschemas. -/
def validateNode : Nat → Json → Json → String → List String
  | 0, _, _, _ => []
  | fuel + 1, Json.obj schemaFields, inst, path =>
      let typeErrs :=
        match Json.lookup schemaFields ("type") with
        | some (Json.str t) =>
            if typeMatches t inst then [] else [path ++ ": type mismatch"]
        | some (Json.arr ts) =>
            if ts.any (fun tj => match tj with | Json.str t => typeMatches t inst | _ => false)
            then [] else [path ++ ": type mismatch"]
        | _ => []
      let requiredErrs :=
        match Json.lookup schemaFields ("required"), inst with
        | some (Json.arr reqs), Json.obj instFields =>
            reqs.flatMap (fun rj =>
              match rj with
              | Json.str rkey =>
                  if Json.containsKey instFields rkey then []
                  else [path ++ ": missing required property " ++ rkey]
              | _ => [])
        | _, _ => []
      let propErrs :=
        match Json.lookup schemaFields ("properties"), inst with
        | some (Json.obj props), Json.obj instFields =>
            props.flatMap (fun kv =>
              match Json.lookup instFields kv.1 with
              | some v => validateNode fuel kv.2 v (path ++ "[\"" ++ kv.1 ++ "\"]")
              | none => [])
        | _, _ => []
      let addErrs :=
        match Json.lookup schemaFields ("additionalProperties"), inst with
        | some (Json.bool false), Json.obj instFields =>
            let propKeys : List String :=
              match Json.lookup schemaFields ("properties") with
              | some (Json.obj props) => props.map Prod.fst
              | _ => []
            instFields.flatMap (fun kv =>
              if propKeys.contains kv.1 then []
              else [path ++ ": additional property " ++ kv.1 ++ " not allowed"])
        | _, _ => []
      let itemErrs :=
        match Json.lookup schemaFields ("items"), inst with
        | some (Json.obj itemFields), Json.arr elems =>
            (List.range elems.length).flatMap (fun i =>
              match elems[i]? with
              | some e => validateNode fuel (Json.obj itemFields) e (path ++ "[" ++ toString i ++ "]")
              | none => [])
        | _, _ => []
      typeErrs ++ requiredErrs ++ propErrs ++ addErrs ++ itemErrs
  | _ + 1, _, _, _ => []

/-- helpers/structured_output.py validate_against_schema: collect up to
25 violations with $-rooted paths. -/
def validate_against_schema (obj : Json) (schema : Json) : List String :=
  (validateNode (jsonSize schema + 1) schema obj ("$")).take 25

/-! ### Strict schema rewrite (make_openai_strict_schema) -/

/-- make_openai_strict_schema's recursive _apply, fuel-bounded (the
Python recursion re-enters already-transformed subtrees, so the tree is
no structural measure; the call sites below pass ample fuel and
evaluate concretely).  The deep copy at entry is the identity on
values; the heap model below covers the aliasing claim. -/
def applyStrict : Nat → Json → Json
  | 0, node => node
  | fuel + 1, Json.obj fields =>
      let node := fields.map (fun kv => (kv.1, applyStrict fuel kv.2))
      let node :=
        match Json.lookup node ("properties") with
        | some (Json.obj props) =>
            let newProps := props.map (fun kv => (kv.1, applyStrict fuel kv.2))
            let node := Json.dictSet node ("properties") (Json.obj newProps)
            let node :=
              match Json.lookup node ("required") with
              | some (Json.arr reqs) =>
                  Json.dictSet node ("required")
                    (Json.arr (reqs.filter (fun rj =>
                      match rj with
                      | Json.str rkey => Json.containsKey newProps rkey
                      | _ => false)))
              | _ => node
            Json.dictSetDefault node ("additionalProperties") (Json.bool false)
        | _ => node
      let node :=
        match Json.lookup node ("items") with
        | some (Json.obj itemFields) =>
            Json.dictSet node ("items") (applyStrict fuel (Json.obj itemFields))
        | _ => node
      let node :=
        match Json.lookup node ("anyOf") with
        | some (Json.arr branch) =>
            Json.dictSet node ("anyOf") (Json.arr (branch.map (applyStrict fuel)))
        | _ => node
      let node :=
        match Json.lookup node ("oneOf") with
        | some (Json.arr branch) =>
            Json.dictSet node ("oneOf") (Json.arr (branch.map (applyStrict fuel)))
        | _ => node
      let node :=
        match Json.lookup node ("allOf") with
        | some (Json.arr branch) =>
            Json.dictSet node ("allOf") (Json.arr (branch.map (applyStrict fuel)))
        | _ => node
      Json.obj node
  | fuel + 1, Json.arr elems => Json.arr (elems.map (applyStrict fuel))
  | _ + 1, other => other

/-- helpers/structured_output.py make_openai_strict_schema (value
level: deepcopy then _apply). -/
def make_openai_strict_schema (fuel : Nat) (schema : Json) : Json :=
  applyStrict fuel schema

/-! ### Auto-fixers (build_schema_array_trimmer,
build_diagnostics_defaults_fixer) -/

/-- Python truthiness of a JSON value. -/
def pyTruthy : Json → Bool
  | Json.null => false
  | Json.bool b => b
  | Json.num n => n != 0
  | Json.str s => s != ""
  | Json.arr es => !es.isEmpty
  | Json.obj fs => !fs.isEmpty

/-- A path element of _collect_array_constraints (string key or the
_WILDCARD marker for array items). -/
inductive PathElem where
  | key (k : String)
  | wildcard
  deriving Repr, DecidableEq

/-- helpers/structured_output.py _type_includes. -/
def type_includes (schemaFields : List (String × Json)) (expected : String) : Bool :=
  match Json.lookup schemaFields ("type") with
  | some (Json.arr ts) =>
      ts.any (fun t => match t with | Json.str s => s == expected | _ => false)
  | some (Json.str s) => s == expected
  | _ => false

/-- helpers/structured_output.py _collect_array_constraints
(fuel-bounded recursion through items and properties; a Python bool
maxItems — bool being an int subclass — is not modelled). -/
def collect_array_constraints : Nat → Json → List PathElem → List (List PathElem × Int)
  | 0, _, _ => []
  | fuel + 1, Json.obj schemaFields, path =>
      let isArray := type_includes schemaFields ("array")
      let maxItemsC :=
        match Json.lookup schemaFields ("maxItems") with
        | some (Json.num m) => if isArray ∧ 0 ≤ m then [(path, m)] else []
        | _ => []
      let itemsC :=
        if isArray then
          match Json.lookup schemaFields ("items") with
          | some (Json.obj itemFields) =>
              collect_array_constraints fuel (Json.obj itemFields) (path ++ [PathElem.wildcard])
          | _ => []
        else []
      let propsC :=
        if type_includes schemaFields ("object") ||
            (match Json.lookup schemaFields ("properties") with
             | some p => pyTruthy p
             | none => false) then
          match Json.lookup schemaFields ("properties") with
          | some (Json.obj props) =>
              props.flatMap (fun kv =>
                collect_array_constraints fuel kv.2 (path ++ [PathElem.key kv.1]))
          | _ => []
        else []
      maxItemsC ++ itemsC ++ propsC
  | _ + 1, _, _ => []

/-- helpers/structured_output.py _apply_array_constraint, as a pure
transform returning the updated value and the changed flag. -/
def apply_array_constraint : Json → List PathElem → Int → Json × Bool
  | target, [], maxItems =>
      (match target with
       | Json.arr es =>
           if (es.length : Int) > maxItems then (Json.arr (es.take maxItems.toNat), true)
           else (Json.arr es, false)
       | t => (t, false))
  | target, PathElem.wildcard :: rest, maxItems =>
      (match target with
       | Json.arr es =>
           if rest.isEmpty then (Json.arr es, false)
           else
             let results := es.map (fun e => apply_array_constraint e rest maxItems)
             (Json.arr (results.map Prod.fst), results.any Prod.snd)
       | t => (t, false))
  | target, PathElem.key k :: rest, maxItems =>
      (match target with
       | Json.obj fields =>
           if rest.isEmpty then
             match Json.lookup fields k with
             | some (Json.arr es) =>
                 if (es.length : Int) > maxItems then
                   (Json.obj (Json.dictSet fields k (Json.arr (es.take maxItems.toNat))), true)
                 else (Json.obj fields, false)
             | _ => (Json.obj fields, false)
           else
             match Json.lookup fields k with
             | none => (Json.obj fields, false)
             | some v =>
                 let res := apply_array_constraint v rest maxItems
                 (Json.obj (Json.dictSet fields k res.1), res.2)
       | t => (t, false))
  termination_by target path m => path.length

/-- helpers/structured_output.py build_schema_array_trimmer. -/
def build_schema_array_trimmer (schema : Json) : Json → Json × Bool :=
  let constraints := collect_array_constraints (jsonSize schema + 1) schema []
  fun payload =>
    if constraints.isEmpty then (payload, false)
    else
      constraints.foldl (fun acc c =>
        let res := apply_array_constraint acc.1 c.1 c.2
        (res.1, acc.2 || res.2)) (payload, false)

def isObjOption : Option Json → Bool
  | some (Json.obj _) => true
  | _ => false

def strDictToJson (xs : List (String × String)) : Json :=
  Json.obj (xs.map (fun p => (p.1, Json.str p.2)))

/-- The _ensure_provider closure of build_diagnostics_defaults_fixer. -/
def ensure_provider (provider_defaults : List (String × List (String × String)))
    (existing : Option Json) : Json × Bool :=
  let start : List (String × Json) × Bool :=
    match existing with
    | some (Json.obj fs) => (fs, false)
    | _ => ([], true)
  let folded := provider_defaults.foldl (fun acc kd =>
    match Json.lookup acc.1 kd.1 with
    | some (Json.obj entry) =>
        let step1 : List (String × Json) × Bool :=
          if ¬ Json.containsKey entry ("kind") ∧ (alistLookup kd.2 ("kind")).isSome then
            (Json.dictSet entry ("kind") (Json.str ((alistLookup kd.2 ("kind")).getD (""))), true)
          else (entry, acc.2)
        let step2 : List (String × Json) × Bool :=
          if ¬ Json.containsKey step1.1 ("model") ∧ (alistLookup kd.2 ("model")).isSome then
            (Json.dictSet step1.1 ("model")
              (Json.str ((alistLookup kd.2 ("model")).getD (""))), true)
          else (step1.1, step1.2)
        (Json.dictSet acc.1 kd.1 (Json.obj step2.1), step2.2)
    | some _ => (Json.dictSet acc.1 kd.1 (strDictToJson kd.2), true)
    | none => (Json.dictSet acc.1 kd.1 (strDictToJson kd.2), true)) start
  (Json.obj folded.1, folded.2)

/-- The _ensure_timing closure of build_diagnostics_defaults_fixer. -/
def ensure_timing (timing_defaults : List (String × Int)) (existing : Option Json) :
    Json × Bool :=
  if timing_defaults.isEmpty then
    match existing with
    | some (Json.obj fs) => (Json.obj fs, false)
    | _ => (Json.obj [], false)
  else
    let start : List (String × Json) × Bool :=
      match existing with
      | some (Json.obj fs) => (fs, false)
      | _ => ([], true)
    let folded := timing_defaults.foldl (fun acc kd =>
      if Json.containsKey acc.1 kd.1 then acc
      else (Json.dictSet acc.1 kd.1 (Json.num kd.2), true)) start
    (Json.obj folded.1, folded.2)

/-- helpers/structured_output.py build_diagnostics_defaults_fixer, as a
pure transform.  Python's object-identity checks (x is not y) before
the write-backs are subsumed: the ensure helpers return a fresh object
exactly when the input was not a dict, and in that case their changed
flag is already true. -/
def build_diagnostics_defaults_fixer (provider_defaults : List (String × List (String × String)))
    (timing_defaults : List (String × Int)) : Json → Json × Bool :=
  fun payload =>
    match payload with
    | Json.obj payloadFields =>
        let diagnostics : Json := (Json.lookup payloadFields ("diagnostics")).getD (Json.obj [])
        (match diagnostics with
         | Json.obj diagFields =>
             let provider := Json.lookup diagFields ("provider")
             let pRes := ensure_provider provider_defaults provider
             let afterP : List (String × Json) × Bool :=
               if pRes.2 || !isObjOption provider then
                 (Json.dictSet diagFields ("provider") pRes.1, pRes.2)
               else (diagFields, false)
             let afterT : List (String × Json) × Bool :=
               if !timing_defaults.isEmpty then
                 let timing := Json.lookup afterP.1 ("timing_ms")
                 let tRes := ensure_timing timing_defaults timing
                 if tRes.2 || !isObjOption timing then
                   (Json.dictSet afterP.1 ("timing_ms") tRes.1, true)
                 else (afterP.1, afterP.2)
               else (afterP.1, afterP.2)
             (Json.obj (Json.dictSet payloadFields ("diagnostics") (Json.obj afterT.1)), afterT.2)
         | _ => (Json.obj payloadFields, false))
    | p => (p, false)

/-! ## Structured output enforcer (helpers/structured_enforcer.py) -/

/-- The payload shapes module.run may return, as consumed by
extract_output_text (bytes already utf-8-decoded). -/
inductive RunResult where
  | nonePayload
  | bytesPayload (decoded : String)
  | strPayload (s : String)
  | jsonPayload (j : Json)

def firstTextItem : List Json → Option String
  | [] => none
  | Json.obj item :: rest =>
      if (match Json.lookup item ("type") with
          | some (Json.str s) => s == "output_text"
          | _ => false) then
        match Json.lookup item ("text") with
        | some (Json.str t) => if pyStrip t ≠ "" then some t else firstTextItem rest
        | _ => firstTextItem rest
      else firstTextItem rest
  | _ :: rest => firstTextItem rest

def firstOutputText : List Json → Option String
  | [] => none
  | Json.obj entry :: rest =>
      (match Json.lookup entry ("content") with
       | some (Json.arr content) =>
           match firstTextItem content with
           | some t => some t
           | none => firstOutputText rest
       | _ => firstOutputText rest)
  | _ :: rest => firstOutputText rest

/-- helpers/structured_output.py extract_output_text. -/
def extract_output_text : RunResult → Option String
  | RunResult.nonePayload => none
  | RunResult.bytesPayload s => some s
  | RunResult.strPayload s => some s
  | RunResult.jsonPayload (Json.obj fields) =>
      (match Json.lookup fields ("output_text") with
       | some (Json.str t) =>
           if pyStrip t ≠ "" then some t
           else
             match Json.lookup fields ("output") with
             | some (Json.arr entries) => firstOutputText entries
             | _ => none
       | _ =>
           match Json.lookup fields ("output") with
           | some (Json.arr entries) => firstOutputText entries
           | _ => none)
  | RunResult.jsonPayload _ => none

/-- helpers/structured_output.py parse_and_validate_structured_output
(fixer exceptions are caught in the code; fixers here are total). -/
def parse_and_validate_structured_output (raw_text : String) (schema : Json)
    (auto_fixers : List (Json → Json × Bool)) : Except String (String × Json) :=
  match postprocess_to_json_text raw_text with
  | Except.error e => Except.error e
  | Except.ok pr =>
      let fixed := auto_fixers.foldl (fun acc f =>
        let r := f acc.1
        (r.1, acc.2 || r.2)) (pr.2, false)
      let canonical := if fixed.2 then dumpJson fixed.1 else pr.1
      let violations := validate_against_schema fixed.1 schema
      if violations.isEmpty then Except.ok (canonical, fixed.1)
      else Except.error ("schema_validation_failed: " ++ String.intercalate ("; ") violations)

/-- LOCAL_RUNTIME_STRUCTURED_MAX_ATTEMPTS defaults to 4. -/
def DEFAULT_MAX_ATTEMPTS : Nat := 4

structure StructuredEnforcementResult where
  canonical_text : String
  parsed : Json
  attempts : Nat

namespace StructuredOutputEnforcer

/-- StructuredOutputEnforcer._build_auto_fixers: always the schema
array trimmer; plus the diagnostics defaults fixer when the raw
schema's properties contain "diagnostics".  The provider/timing
defaults are built from the selected model id and the STT model env
var, passed in here. -/
def build_auto_fixers (schema : Json) (selected_id stt_model : String) :
    List (Json → Json × Bool) :=
  let provider_defaults :=
    [("stt", [("kind", "local"), ("model", stt_model)]),
     ("llm", [("kind", "local"), ("model", selected_id)])]
  let timing_defaults : List (String × Int) := [("stt", 0), ("llm", 0), ("total", 0)]
  let schema_props : Json :=
    match schema with
    | Json.obj fs =>
        (match Json.lookup fs ("properties") with
         | some p => if pyTruthy p then p else Json.obj []
         | none => Json.obj [])
    | _ => Json.obj []
  [build_schema_array_trimmer schema] ++
    (match schema_props with
     | Json.obj props =>
         if Json.containsKey props ("diagnostics") then
           [build_diagnostics_defaults_fixer provider_defaults timing_defaults]
         else []
     | _ => [])

/-- The retry loop of StructuredOutputEnforcer.run.  The backend oracle
is indexed by attempt number (the real call's payload differs per
attempt only through the appended retry feedback and the sampling caps,
which the oracle's index subsumes); `remaining` counts attempts left
including the current one.  On success: canonical text, parsed value,
and the attempt number; on exhaustion: the last failure reason and the
number of attempts performed. -/
def loop (backend : Nat → RunResult) (effective_schema : Json)
    (auto_fixers : List (Json → Json × Bool)) :
    Nat → Nat → Except (String × Nat) StructuredEnforcementResult
  | 0, attempt => Except.error (("structured_output_failed"), attempt)
  | remaining + 1, attempt =>
      match extract_output_text (backend attempt) with
      | none =>
          (match remaining with
           | 0 => Except.error (("missing_output_text"), attempt)
           | r + 1 => loop backend effective_schema auto_fixers (r + 1) (attempt + 1))
      | some t =>
          if t = "" then
            (match remaining with
             | 0 => Except.error (("missing_output_text"), attempt)
             | r + 1 => loop backend effective_schema auto_fixers (r + 1) (attempt + 1))
          else
            match parse_and_validate_structured_output t effective_schema auto_fixers with
            | Except.ok pr => Except.ok ⟨pr.1, pr.2, attempt⟩
            | Except.error e =>
                match remaining with
                | 0 => Except.error (e, attempt)
                | r + 1 => loop backend effective_schema auto_fixers (r + 1) (attempt + 1)

/-- StructuredOutputEnforcer.run: max(1, DEFAULT_MAX_ATTEMPTS) attempts
starting at attempt 1.  Validation uses the effective (strict-rewritten)
schema; the fixers are built from the raw schema, as in __init__. -/
def run (backend : Nat → RunResult) (effective_schema raw_schema : Json)
    (selected_id stt_model : String) : Except (String × Nat) StructuredEnforcementResult :=
  loop backend effective_schema (build_auto_fixers raw_schema selected_id stt_model)
    (max 1 DEFAULT_MAX_ATTEMPTS) 1

end StructuredOutputEnforcer

/-! ## Heap model of make_openai_strict_schema (claim C10)

Python objects live on a heap: dicts and lists are mutable objects
referenced by address, scalars are immutable.  The rewrite first deep
copies its argument and _apply then mutates only the dicts it freshly
allocates (every assignment targets the comprehension result bound to
`node`), so no pre-existing address is ever written.  This section
embeds exactly that allocation/mutation discipline to state the frame
property; every function drains one unit of fuel per call (the value
recursion above mirrors the same Python code at the value level). -/

/-- Immutable Python scalars stored on the heap. -/
inductive HScalar where
  | null
  | boolv (b : Bool)
  | intv (n : Int)
  | strv (s : String)
  deriving Repr, DecidableEq

/-- A heap object: scalar, dict (ordered string keys, address values),
or list of addresses. -/
inductive HObj where
  | scalar (v : HScalar)
  | dict (entries : List (String × Nat))
  | list (elems : List Nat)
  deriving Repr, DecidableEq

/-- The addresses an object refers to. -/
def HObj.addrs : HObj → List Nat
  | HObj.scalar _ => []
  | HObj.dict es => es.map Prod.snd
  | HObj.list xs => xs

/-- A heap: an address-keyed store plus the next fresh address. -/
structure Heap where
  store : List (Nat × HObj)
  next : Nat
  deriving Repr, DecidableEq

/-- Association lookup in a store (first match; WF keeps keys unique). -/
def lookupList : List (Nat × HObj) → Nat → Option HObj
  | [], _ => none
  | p :: rest, a => if p.1 = a then some p.2 else lookupList rest a

namespace Heap

def lookup (h : Heap) (a : Nat) : Option HObj := lookupList h.store a

/-- Allocate a fresh object; returns the heap and the new address. -/
def alloc (h : Heap) (o : HObj) : Heap × Nat :=
  ({ store := h.store ++ [(h.next, o)], next := h.next + 1 }, h.next)

/-- Overwrite the object at an existing address (in place). -/
def set (h : Heap) (a : Nat) (o : HObj) : Heap :=
  { h with store := h.store.map (fun p => if p.1 = a then (a, o) else p) }

/-- Well-formed: every stored address is below the allocation bound. -/
def WF (h : Heap) : Prop := ∀ p ∈ h.store, p.1 < h.next

/-- Address-closed: every reference inside a stored object is below the
allocation bound (no dangling forward references). -/
def Closed (h : Heap) : Prop := ∀ p ∈ h.store, ∀ b ∈ p.2.addrs, b < h.next

end Heap

/-- Python `node.get(k)` on the dict at address d. -/
def hDictGet (h : Heap) (d : Nat) (k : String) : Option Nat :=
  match h.lookup d with
  | some (HObj.dict es) => alistLookup es k
  | _ => none

/-- Entry update for a heap dict, in insertion order (existing key
updated in place, new key appended). -/
def hEntriesSet (es : List (String × Nat)) (k : String) (v : Nat) : List (String × Nat) :=
  match es with
  | [] => [(k, v)]
  | (k2, v2) :: rest => if k2 = k then (k2, v) :: rest else (k2, v2) :: hEntriesSet rest k v

/-- Python `node[k] = v` on the dict at address d. -/
def hDictSet (h : Heap) (d : Nat) (k : String) (v : Nat) : Heap :=
  match h.lookup d with
  | some (HObj.dict es) => h.set d (HObj.dict (hEntriesSet es k v))
  | _ => h

/-- Transform every value of a heap dict entry list left to right,
threading the heap (the value comprehension shared by deepcopy and
_apply). -/
def heapMapEntries (g : Heap → Nat → Option (Heap × Nat)) :
    Heap → List (String × Nat) → Option (Heap × List (String × Nat))
  | h, [] => some (h, [])
  | h, (k, v) :: rest =>
      (g h v).bind (fun pv =>
        (heapMapEntries g pv.1 rest).map (fun pr => (pr.1, (k, pv.2) :: pr.2)))

/-- Transform every element of a heap list left to right, threading the
heap. -/
def heapMapElems (g : Heap → Nat → Option (Heap × Nat)) :
    Heap → List Nat → Option (Heap × List Nat)
  | h, [] => some (h, [])
  | h, v :: rest =>
      (g h v).bind (fun pv =>
        (heapMapElems g pv.1 rest).map (fun pr => (pr.1, pv.2 :: pr.2)))

/-- copy.deepcopy on the heap: scalars are returned as-is (deepcopy
keeps atomic immutables identical), containers are copied bottom-up
into fresh addresses.  Memoization of shared references is not
modelled: a shared subobject is copied once per occurrence, which
affects only aliasing inside the copy, not the frame property. -/
def deepcopyF : Nat → Heap → Nat → Option (Heap × Nat)
  | 0, _, _ => none
  | f + 1, h, a =>
      match h.lookup a with
      | none => none
      | some (HObj.scalar _) => some (h, a)
      | some (HObj.dict es) =>
          (heapMapEntries (deepcopyF f) h es).map (fun p => p.1.alloc (HObj.dict p.2))
      | some (HObj.list xs) =>
          (heapMapElems (deepcopyF f) h xs).map (fun p => p.1.alloc (HObj.list p.2))

/-- The required-list filter step of _apply's properties block: when
node["required"] is a list object, keep the elements that are strings
contained in the new property keys (keeping the original element
references), allocate the filtered list fresh, and assign it. -/
def requiredStep (h : Heap) (d : Nat) (propKeys : List String) : Heap :=
  match hDictGet h d ("required") with
  | some rAddr =>
      (match h.lookup rAddr with
       | some (HObj.list relems) =>
           let keep := relems.filter (fun ra =>
             match h.lookup ra with
             | some (HObj.scalar (HScalar.strv s)) => propKeys.contains s
             | _ => false)
           let alr := h.alloc (HObj.list keep)
           hDictSet alr.1 d ("required") alr.2
       | _ => h)
  | none => h

/-- node.setdefault("additionalProperties", False): allocate a fresh
False scalar and append it when the key is absent. -/
def setdefaultAPStep (h : Heap) (d : Nat) : Heap :=
  match hDictGet h d ("additionalProperties") with
  | some _ => h
  | none =>
      let alf := h.alloc (HObj.scalar (HScalar.boolv false))
      hDictSet alf.1 d ("additionalProperties") alf.2

/-- The properties block of _apply (parametrized by the entry-list
transform): when node["properties"] is a dict, re-apply to each
property value, allocate the new properties dict and assign it, filter
an existing required list (keeping the original element references)
into a fresh list, and setdefault additionalProperties to a fresh
False scalar. -/
def applyPropsBlockW
    (gE : Heap → List (String × Nat) → Option (Heap × List (String × Nat)))
    (h : Heap) (d : Nat) : Option Heap :=
  match hDictGet h d ("properties") with
  | none => some h
  | some pAddr =>
      match h.lookup pAddr with
      | some (HObj.dict props) =>
          (gE h props).bind (fun pp =>
            let al := pp.1.alloc (HObj.dict pp.2)
            some (setdefaultAPStep
              (requiredStep (hDictSet al.1 d ("properties") al.2) d (pp.2.map Prod.fst))
              d))
      | _ => some h

/-- The items block of _apply (parametrized by the value transform):
when node["items"] is a dict, re-apply and assign the result. -/
def applyItemsBlockW (gV : Heap → Nat → Option (Heap × Nat)) (h : Heap) (d : Nat) :
    Option Heap :=
  match hDictGet h d ("items") with
  | none => some h
  | some iAddr =>
      match h.lookup iAddr with
      | some (HObj.dict _) =>
          (gV h iAddr).map (fun pi2 => hDictSet pi2.1 d ("items") pi2.2)
      | _ => some h

/-- One composition-keyword block of _apply (parametrized by the
element-list transform): when node[key] is a list, re-apply to each
element and assign a fresh list of the results. -/
def applyBranchBlockW (gX : Heap → List Nat → Option (Heap × List Nat))
    (h : Heap) (d : Nat) (key : String) : Option Heap :=
  match hDictGet h d key with
  | none => some h
  | some bAddr =>
      match h.lookup bAddr with
      | some (HObj.list xs) =>
          (gX h xs).map (fun pb =>
            let al := pb.1.alloc (HObj.list pb.2)
            hDictSet al.1 d key al.2)
      | _ => some h

/-- _apply on the heap.  A dict argument: transform every value, bind
the fresh comprehension dict to `node` (a new allocation), then run the
properties/required/additionalProperties block, the items block, and
the three composition-keyword blocks — each of which mutates only the
fresh `node` dict at address d. -/
def applyH : Nat → Heap → Nat → Option (Heap × Nat)
  | 0, _, _ => none
  | f + 1, h, a =>
      match h.lookup a with
      | none => none
      | some (HObj.scalar _) => some (h, a)
      | some (HObj.list xs) =>
          (heapMapElems (applyH f) h xs).map (fun p => p.1.alloc (HObj.list p.2))
      | some (HObj.dict es) =>
          (heapMapEntries (applyH f) h es).bind (fun pe =>
            let al := pe.1.alloc (HObj.dict pe.2)
            (applyPropsBlockW (heapMapEntries (applyH f)) al.1 al.2).bind (fun h3 =>
              (applyItemsBlockW (applyH f) h3 al.2).bind (fun h4 =>
                (applyBranchBlockW (heapMapElems (applyH f)) h4 al.2 ("anyOf")).bind (fun h5 =>
                  (applyBranchBlockW (heapMapElems (applyH f)) h5 al.2 ("oneOf")).bind (fun h6 =>
                    (applyBranchBlockW (heapMapElems (applyH f)) h6 al.2 ("allOf")).map
                      (fun h7 => (h7, al.2)))))))

/-- make_openai_strict_schema on the heap: deep copy, then _apply on
the copy. -/
def make_openai_strict_schemaH (fuel : Nat) (h : Heap) (a : Nat) : Option (Heap × Nat) :=
  (deepcopyF fuel h a).bind (fun p => applyH fuel p.1 p.2)

def scalarToJson : HScalar → Json
  | HScalar.null => Json.null
  | HScalar.boolv b => Json.bool b
  | HScalar.intv n => Json.num n
  | HScalar.strv s => Json.str s

/-- Read the JSON value rooted at an address (fuel-bounded; dangling or
too-deep reads default to null, which suffices for congruence
statements). -/
def readBackF : Nat → Heap → Nat → Json
  | 0, _, _ => Json.null
  | f + 1, h, a =>
      match h.lookup a with
      | some (HObj.scalar v) => scalarToJson v
      | some (HObj.dict es) => Json.obj (es.map (fun kv => (kv.1, readBackF f h kv.2)))
      | some (HObj.list xs) => Json.arr (xs.map (readBackF f h))
      | none => Json.null

/-- heaps h ⊑ h': allocation bound grows and every pre-existing address
reads the same object. -/
def HeapExtends (h h' : Heap) : Prop :=
  h.next ≤ h'.next ∧ ∀ b, b < h.next → h'.lookup b = h.lookup b

/-- heaps agree below h.next except possibly at one (fresh) address d. -/
def HeapExtendsExcept (h h' : Heap) (d : Nat) : Prop :=
  h.next ≤ h'.next ∧ ∀ b, b < h.next → b ≠ d → h'.lookup b = h.lookup b

/-- Frame contract of a heap value transform: it preserves
well-formedness, never touches a pre-existing address, and returns
either its own (scalar) argument or a fresh address. -/
def GFrame (g : Heap → Nat → Option (Heap × Nat)) : Prop :=
  ∀ h a h' r, Heap.WF h → g h a = some (h', r) →
    Heap.WF h' ∧ HeapExtends h h' ∧
    ((∃ v, h.lookup a = some (HObj.scalar v) ∧ r = a) ∨ h.next ≤ r)

/-- Frame contract of an entry-list transform. -/
def EFrame (gE : Heap → List (String × Nat) → Option (Heap × List (String × Nat))) : Prop :=
  ∀ h es h' es', Heap.WF h → gE h es = some (h', es') → Heap.WF h' ∧ HeapExtends h h'

/-- Frame contract of an element-list transform. -/
def XFrame (gX : Heap → List Nat → Option (Heap × List Nat)) : Prop :=
  ∀ h xs h' xs', Heap.WF h → gX h xs = some (h', xs') → Heap.WF h' ∧ HeapExtends h h' 

/-- The concrete input heap of the C10 witness: one empty dict at
address 0. -/
def c10Heap : Heap := { store := [(0, HObj.dict [])], next := 1 }

/-- The heap after rewriting the schema at address 0 of c10Heap: the
deep copy at address 1, the transformed result at address 2; address 0
untouched. -/
def c10OutHeap : Heap :=
  { store := [(0, HObj.dict []), (1, HObj.dict []), (2, HObj.dict [])], next := 3 }

/-- The schema of the C1/C6 examples:
`{"type":"object","properties":{"a":{"type":"number"}}}`. -/
def numberPropSchema : Json :=
  Json.obj [("type", Json.str ("object")),
            ("properties", Json.obj [("a", Json.obj [("type", Json.str ("number"))])])]

end LocalRuntime

namespace LocalRuntime

/-! ## Helper lemmas: the error status is absorbing -/

theorem mark_phase_error_absorbing (r : ReadinessState) (n s : String) (d : Option String)
    (h : r.status = "error") : (r.mark_phase n s d).status = "error" := by
  unfold ReadinessState.mark_phase
  by_cases hs : s = "error" <;> simp [hs]
  have : ¬ (s = "degraded" ∧ ¬ ({ r with startup_checks := r.startup_checks ++ [⟨n, s, d⟩] } : ReadinessState).status = "error") := by
    simp [h]
  simp [this, h]

theorem readinessStep_error_absorbing (r : ReadinessState) (op : ReadinessOp)
    (h : r.status = "error") : (readinessStep r op).status = "error" := by
  cases op with
  | markPhase n s d => exact mark_phase_error_absorbing r n s d h
  | markReady => simp [readinessStep, ReadinessState.mark_ready, h]
  | markDegraded reason => simp [readinessStep, ReadinessState.mark_degraded, h]
  | markError reason => simp [readinessStep, ReadinessState.mark_error]
  | beginSelfTest => simp [readinessStep, ReadinessState.begin_self_test, h]
  | recordSelfTestCheck n s d => simp [readinessStep, ReadinessState.record_self_test_check, h]
  | finishSelfTest s =>
      simp only [readinessStep, ReadinessState.finish_self_test]
      by_cases h1 : s = "ok" <;> by_cases h2 : s = "degraded" <;> by_cases h3 : s = "error" <;>
        simp [h1, h2, h3, ReadinessState.mark_ready, ReadinessState.mark_degraded,
          ReadinessState.mark_error, h]

theorem readinessRun_error_absorbing (r : ReadinessState) (ops : List ReadinessOp)
    (h : r.status = "error") : (readinessRun r ops).status = "error" := by
  induction ops generalizing r with
  | nil => simpa [readinessRun] using h
  | cons op rest ih =>
      simp only [readinessRun, List.foldl_cons]
      exact ih _ (readinessStep_error_absorbing r op h)

/-! ## Claim C4 -/

/-- C4: once any ReadinessTracker call has set the status to "error"
(in particular mark_error), every later call sequence — and in
particular every subsequent mark_ready — leaves the status equal to
"error": "error" is terminal for the boot cycle. -/
theorem readiness_error_is_terminal (r : ReadinessState) (ops : List ReadinessOp)
    (h : r.status = "error") :
    (readinessRun r (ops ++ [ReadinessOp.markReady])).status = "error" ∧
    (readinessRun r ops).status = "error" :=
  ⟨readinessRun_error_absorbing r (ops ++ [ReadinessOp.markReady]) h,
   readinessRun_error_absorbing r ops h⟩

/-- Witness for C4 at a concrete state and call sequence. -/
theorem readiness_error_is_terminal_witness :
    ((ReadinessState.init.mark_error ("boom")).status = "error") ∧
    (readinessRun (ReadinessState.init.mark_error ("boom"))
       ([ReadinessOp.markDegraded none] ++ [ReadinessOp.markReady])).status = "error" :=
  ⟨by decide,
   (readiness_error_is_terminal (ReadinessState.init.mark_error ("boom"))
      [ReadinessOp.markDegraded none] (by decide)).1⟩

/-! ## Claim C9 -/

/-- C9 (implicit): "degraded" is not terminal — from any state whose
status is not "error" (in particular "degraded"), mark_ready moves the
status to "ready"; only "error" blocks the transition. -/
theorem mark_ready_from_degraded (r : ReadinessState) (h : r.status ≠ "error") :
    (r.mark_ready).status = "ready" ∧
    (r.status = "degraded" → (r.mark_ready).status = "ready") := by
  constructor
  · simp [ReadinessState.mark_ready, h]
  · intro _; simp [ReadinessState.mark_ready, h]

/-- Witness for C9 at a concrete degraded state. -/
theorem mark_ready_from_degraded_witness :
    ((ReadinessState.init.mark_degraded (some ("slow"))).status = "degraded") ∧
    ((ReadinessState.init.mark_degraded (some ("slow"))).mark_ready).status = "ready" :=
  ⟨by decide,
   (mark_ready_from_degraded (ReadinessState.init.mark_degraded (some ("slow")))
     (by decide)).1⟩

/-! ## Claim C2: selection always prefers the priority-100 model -/

/-- Score separation: with the same platform, a priority-100 candidate
always scores strictly above a priority-50 candidate, whatever the two
providers and execution modes are.  On darwin-arm64 the 50-model can
gain at most +25+5+2 (in fact +25 and +2 are mutually exclusive, but
even 82 < 100); elsewhere +25 is impossible and 57 < 80. -/
theorem score_100_gt_50 (platform_id : String) (a b : LoadedModel)
    (ha : a.spec.compat.priority = 100) (hb : b.spec.compat.priority = 50) :
    SelectionStrategy.score platform_id b < SelectionStrategy.score platform_id a := by
  unfold SelectionStrategy.score
  split_ifs <;> first | omega | tauto

/-- C2: in any catalog whose platform-compatible candidates for an
endpoint are exactly one priority-100 and one priority-50 model (in
either order), SelectionStrategy.select without a requested id returns
the priority-100 model, for every platform id and every combination of
providers and execution modes. -/
theorem select_prefers_priority100 (platform_id endpoint : String)
    (models : List LoadedModel) (a b : LoadedModel)
    (hc : SelectionStrategy.candidatesFor platform_id models endpoint = [a, b])
    (hp : (a.spec.compat.priority = 100 ∧ b.spec.compat.priority = 50) ∨
          (a.spec.compat.priority = 50 ∧ b.spec.compat.priority = 100)) :
    ∃ m, SelectionStrategy.select platform_id models endpoint none = .ok m ∧
      m.spec.compat.priority = 100 ∧ (m = a ∨ m = b) := by
  have hsel : SelectionStrategy.select platform_id models endpoint none
      = SelectionStrategy.selectDefault platform_id [a, b] := by
    unfold SelectionStrategy.select
    rw [hc]
  rcases hp with ⟨hpa, hpb⟩ | ⟨hpa, hpb⟩
  · refine ⟨a, ?_, hpa, Or.inl rfl⟩
    have h := score_100_gt_50 platform_id a b hpa hpb
    rw [hsel]
    simp [SelectionStrategy.selectDefault, SelectionStrategy.pyMaxBy, not_lt.mpr (le_of_lt h)]
  · refine ⟨b, ?_, hpb, Or.inr rfl⟩
    have h := score_100_gt_50 platform_id b a hpb hpa
    rw [hsel]
    simp [SelectionStrategy.selectDefault, SelectionStrategy.pyMaxBy, h]

/-- A concrete priority-100 model for the C2 witness. -/
def c2High : LoadedModel :=
  { spec :=
    { id := "m-high"
      api := { endpoint := "responses", advertised_model_name := none, supports_stream := true }
      compat := { platforms := ["linux-x64", "darwin-arm64"], priority := 100 }
      backend := { provider := "mlx" }
      execution := { mode := "subprocess" } } }

/-- A concrete priority-50 model for the C2 witness (placed first in
the catalog, with every soft bonus available off-platform). -/
def c2Low : LoadedModel :=
  { spec :=
    { id := "m-low"
      api := { endpoint := "responses", advertised_model_name := none, supports_stream := true }
      compat := { platforms := ["linux-x64", "darwin-arm64"], priority := 50 }
      backend := { provider := "hf" }
      execution := { mode := "inprocess" } } }

/-- Witness for C2: the low-priority model listed first, the
mlx-provided high-priority model penalized off-platform — selection
still returns the priority-100 model. -/
theorem select_prefers_priority100_witness :
    ∃ m, SelectionStrategy.select ("linux-x64") [c2Low, c2High] ("responses") none = .ok m ∧
      m.spec.compat.priority = 100 ∧ (m = c2Low ∨ m = c2High) :=
  select_prefers_priority100 ("linux-x64") ("responses") [c2Low, c2High] c2Low c2High
    (by decide) (Or.inr ⟨by decide, by decide⟩)

/-! ## Claim C3: load-job statuses and the aggregate rule -/

theorem statusOf_eq_error_iff (o : PreloadOutcome) :
    ModelLoadManager.statusOf o = "error" ↔ o = .raised := by
  cases o with
  | ret b => cases b <;> simp [ModelLoadManager.statusOf]
  | raised => simp [ModelLoadManager.statusOf]

theorem jobStatuses_any_error_iff {α : Type} (env : String → ModelEnv α)
    (insts : List (String × α)) (models : List String) :
    ((ModelLoadManager.jobStatuses env insts models).any (fun p => p.2 == "error") = true) ↔
    ∃ id ∈ ModelLoadManager.dedupFirst models,
      (preload_model env insts id).outcome = .raised := by
  unfold ModelLoadManager.jobStatuses
  induction ModelLoadManager.dedupFirst models with
  | nil => simp
  | cons t ts ih => simp [ih, statusOf_eq_error_iff]

/-- Hook environment for the C3 counterexample: model "a" is in the
catalog, uncached, has a load hook, and that load hook raises. -/
def c3LoadErrEnv : String → ModelEnv Nat :=
  fun _ => { in_catalog := true, load_hook := some none, warmup_raises := none }

/-- Counterexample to C3 as stated: a job whose only target's load hook
errored finishes with per-model status "skipped" and aggregate status
"completed" — not "failed" as the claim requires.  _preload_model
catches the load-hook exception and returns False, which _load_single
records as "skipped". -/
theorem job_completed_despite_load_error :
    (c3LoadErrEnv ("a")).load_hook = some none ∧
    (preload_model c3LoadErrEnv [] ("a")).calls = [HookCall.load ("a")] ∧
    (ModelLoadManager.create_job c3LoadErrEnv [] [("a")]).statuses = [("a", "skipped")] ∧
    (ModelLoadManager.create_job c3LoadErrEnv [] [("a")]).status = "completed" := by
  refine ⟨rfl, rfl, ?_, ?_⟩ <;> decide

/-- C3 as amended: create_job(["a","b","a"]) tracks exactly the two
distinct statuses "a","b" in first-seen order; and once all per-model
tasks finish, the aggregate status is "failed" exactly when some
per-model task raised — which happens exactly for an uncached catalog
target whose load hook succeeds and whose warmup hook raises.  An
exception inside the load hook itself is caught by _preload_model
(per-model status "skipped") and therefore yields "completed". -/
theorem create_job_status_characterization {α : Type} (env : String → ModelEnv α)
    (insts : List (String × α)) (models : List String) :
    ((ModelLoadManager.create_job env insts ["a", "b", "a"]).statuses.map Prod.fst
        = ["a", "b"]) ∧
    ((ModelLoadManager.create_job env insts models).status = "failed" ∨
       (ModelLoadManager.create_job env insts models).status = "completed") ∧
    ((ModelLoadManager.create_job env insts models).status = "failed" ↔
       ∃ id ∈ ModelLoadManager.dedupFirst models,
         (preload_model env insts id).outcome = .raised) ∧
    (∀ id, (preload_model env insts id).outcome = .raised ↔
       ((env id).in_catalog = true ∧ alistLookup insts id = none ∧
        (∃ v, (env id).load_hook = some (some v)) ∧ (env id).warmup_raises = some true)) := by
  refine ⟨?_, ?_, ?_, ?_⟩
  · have hd : ModelLoadManager.dedupFirst ["a", "b", "a"] = ["a", "b"] := by decide
    show (ModelLoadManager.jobStatuses env insts ["a", "b", "a"]).map Prod.fst = ["a", "b"]
    rw [ModelLoadManager.jobStatuses, hd, List.map_map]
    rfl
  · show (if _ = true then "failed" else "completed") = "failed" ∨
      (if _ = true then "failed" else "completed") = "completed"
    split
    · exact Or.inl rfl
    · exact Or.inr rfl
  · show (if _ = true then "failed" else "completed") = "failed" ↔ _
    split <;> rename_i h
    · simpa using (jobStatuses_any_error_iff env insts models).mp h
    · have hni : ¬ ∃ id ∈ ModelLoadManager.dedupFirst models,
          (preload_model env insts id).outcome = .raised :=
        fun hc => h ((jobStatuses_any_error_iff env insts models).mpr hc)
      simpa using hni
  · intro id
    cases hcat : (env id).in_catalog with
    | false => simp [preload_model, hcat]
    | true =>
      cases hl : alistLookup insts id with
      | some v => simp [preload_model, hcat, hl]
      | none =>
        cases hlh : (env id).load_hook with
        | none => simp [preload_model, hcat, hl, hlh]
        | some ov =>
          cases ov with
          | none => simp [preload_model, hcat, hl, hlh]
          | some v =>
            cases hw : (env id).warmup_raises with
            | none => simp [preload_model, hcat, hl, hlh, hw]
            | some b => cases b <;> simp [preload_model, hcat, hl, hlh, hw]

/-! ## Claim C8: preload_model is idempotent -/

/-- C8: preload_model's contract for a catalog model id.  If the id is
already cached: success, no hook invoked, cache unchanged.  If uncached
with no load hook: failure, no hook invoked, cache unchanged.  If
uncached and the load hook returns v: v is cached, and the trace is the
load call followed — exactly when a warmup hook is defined — by the
warmup call on the fresh instance v. -/
theorem preload_model_contract {α : Type} (env : String → ModelEnv α)
    (insts : List (String × α)) (model_id : String)
    (hcat : (env model_id).in_catalog = true) :
    ((alistLookup insts model_id).isSome = true →
        (preload_model env insts model_id).outcome = .ret true ∧
        (preload_model env insts model_id).model_instances = insts ∧
        (preload_model env insts model_id).calls = []) ∧
    (alistLookup insts model_id = none → (env model_id).load_hook = none →
        (preload_model env insts model_id).outcome = .ret false ∧
        (preload_model env insts model_id).model_instances = insts ∧
        (preload_model env insts model_id).calls = []) ∧
    (∀ v, alistLookup insts model_id = none → (env model_id).load_hook = some (some v) →
        (preload_model env insts model_id).model_instances = insts ++ [(model_id, v)] ∧
        (preload_model env insts model_id).calls =
          HookCall.load model_id ::
            (if (env model_id).warmup_raises.isSome then [HookCall.warmup model_id v] else [])) := by
  refine ⟨?_, ?_, ?_⟩
  · intro hcache
    obtain ⟨v, hv⟩ := Option.isSome_iff_exists.mp hcache
    simp [preload_model, hcat, hv]
  · intro hcache hload
    simp [preload_model, hcat, hcache, hload]
  · intro v hcache hload
    cases hw : (env model_id).warmup_raises with
    | none => simp [preload_model, hcat, hcache, hload, hw]
    | some b => cases b <;> simp [preload_model, hcat, hcache, hload, hw]

/-- Hook environment for the C8 witness over instance type Nat. -/
def c8Env : String → ModelEnv Nat :=
  fun id =>
    if id = "no-load" then { in_catalog := true, load_hook := none, warmup_raises := none }
    else { in_catalog := true, load_hook := some (some 42), warmup_raises := some false }

/-- Witness for C8: all three branches of the contract at concrete
inputs (a cached id, an uncached id with no load hook, and an uncached
id whose load succeeds and warmup is defined). -/
theorem preload_model_contract_witness :
    ((preload_model c8Env [("cached", 7)] ("cached")).outcome = .ret true ∧
     (preload_model c8Env [("cached", 7)] ("cached")).model_instances = [("cached", 7)] ∧
     (preload_model c8Env [("cached", 7)] ("cached")).calls = []) ∧
    ((preload_model c8Env [] ("no-load")).outcome = .ret false ∧
     (preload_model c8Env [] ("no-load")).model_instances = [] ∧
     (preload_model c8Env [] ("no-load")).calls = []) ∧
    ((preload_model c8Env [] ("fresh")).model_instances = [("fresh", 42)] ∧
     (preload_model c8Env [] ("fresh")).calls =
       HookCall.load ("fresh") ::
         (if (c8Env ("fresh")).warmup_raises.isSome then [HookCall.warmup ("fresh") 42] else [])) :=
  ⟨(preload_model_contract c8Env [("cached", 7)] ("cached") (by decide)).1 (by decide),
   (preload_model_contract c8Env [] ("no-load") (by decide)).2.1 (by decide) (by decide),
   (preload_model_contract c8Env [] ("fresh") (by decide)).2.2 42 (by decide) (by decide)⟩

/-! ## Claim C7: lenient self-test helper lemmas -/

theorem stCheck_name_eq (oracle : String → String → Bool) (ep : String) (m : STModel) :
    (SelfTest.stCheck oracle ep m).name = ep ++ ":" ++ m.id := by
  unfold SelfTest.stCheck
  split_ifs <;> rfl

theorem streamCheck_name_eq (nm : String) (pass : Bool) :
    (SelfTest.streamCheck nm pass).name = nm := by
  unfold SelfTest.streamCheck
  split_ifs <;> rfl

theorem mainChecks_names (oracle : String → String → Bool)
    (tm : List (String × List STModel)) :
    (SelfTest.mainChecks oracle tm).map CheckResult.name
      = tm.flatMap (fun g => if g.2.isEmpty then [g.1]
                          else g.2.map (fun m => g.1 ++ ":" ++ m.id)) := by
  induction tm with
  | nil => rfl
  | cons g gs ih =>
      have hgroup : ∀ (ms : List STModel) (ep : String),
          (ms.map (SelfTest.stCheck oracle ep)).map CheckResult.name
            = ms.map (fun m => ep ++ ":" ++ m.id) := by
        intro ms ep
        induction ms with
        | nil => rfl
        | cons m ms ihm => simp [stCheck_name_eq, ihm]
      simp only [SelfTest.mainChecks, List.flatMap_cons, List.map_append] at *
      rw [ih]
      congr 1
      by_cases hge : g.2.isEmpty <;> simp [hge, hgroup]

theorem mark_ready_self_test (r : ReadinessState) :
    (r.mark_ready).self_test = r.self_test := by
  unfold ReadinessState.mark_ready
  split_ifs <;> rfl

theorem mark_degraded_self_test (r : ReadinessState) (reason : Option String) :
    (r.mark_degraded reason).self_test = r.self_test := by
  unfold ReadinessState.mark_degraded
  split_ifs <;> rfl

theorem finish_self_test_fields (r : ReadinessState) (s : String) :
    (r.finish_self_test s).self_test.status = s ∧
    (r.finish_self_test s).self_test.checks = r.self_test.checks := by
  unfold ReadinessState.finish_self_test
  split_ifs <;>
    simp [mark_ready_self_test, mark_degraded_self_test, ReadinessState.mark_error]

theorem record_fold_self_test (cs : List CheckResult) (r : ReadinessState) :
    (cs.foldl (fun acc c => acc.record_self_test_check c.name c.status c.detail)
        r).self_test.checks = r.self_test.checks ++ cs := by
  induction cs generalizing r with
  | nil => simp
  | cons c cs ih =>
      simp only [List.foldl_cons]
      rw [ih (r.record_self_test_check c.name c.status c.detail)]
      simp [ReadinessState.record_self_test_check]

theorem run_startup_self_test_nonempty (models : List STModel)
    (defaults : List (String × String)) (oracle : String → String → Bool)
    (streamResp streamStt : String → Bool) (strict : Bool) (r : ReadinessState)
    (hne : models.isEmpty = false) :
    SelfTest.run_startup_self_test models defaults oracle streamResp streamStt strict r =
      ⟨((SelfTest.allChecksOf models defaults oracle streamResp streamStt).foldl
           (fun acc c => acc.record_self_test_check c.name c.status c.detail)
           r.begin_self_test).finish_self_test
         (if (SelfTest.allChecksOf models defaults oracle streamResp streamStt).any
               (fun c => c.status == "error")
          then (if strict then "error" else "degraded") else "ok"),
       ((SelfTest.allChecksOf models defaults oracle streamResp streamStt).any
           (fun c => c.status == "error")) && strict⟩ := by
  unfold SelfTest.run_startup_self_test
  rw [hne]
  rfl

theorem allChecksOf_names (models : List STModel) (defaults : List (String × String))
    (oracle : String → String → Bool) (streamResp streamStt : String → Bool) :
    (SelfTest.allChecksOf models defaults oracle streamResp streamStt).map CheckResult.name
      = SelfTest.expectedCheckNames models defaults := by
  unfold SelfTest.allChecksOf SelfTest.expectedCheckNames
  rw [List.map_append, List.map_append, mainChecks_names]
  congr 1
  congr 1
  · unfold SelfTest.respStreamChecks
    cases SelfTest.streamTarget models defaults ("responses") with
    | none => rfl
    | some m => simp [streamCheck_name_eq]
  · unfold SelfTest.sttStreamChecks
    cases SelfTest.streamTarget models defaults ("audio.transcriptions") with
    | none => rfl
    | some m => simp [streamCheck_name_eq]

/-- C7: run_startup_self_test in lenient mode (strict = False) on a
registry with at least one model never raises; on return the self-test
status is "ok" when no check failed and "degraded" when at least one
check failed; and the set of checks performed (their recorded names)
depends only on the registry and defaults, never on any check's
outcome — one failing check never stops the remaining checks. -/
theorem self_test_lenient_ok_or_degraded (models : List STModel)
    (defaults : List (String × String)) (oracle : String → String → Bool)
    (streamResp streamStt : String → Bool) (r : ReadinessState)
    (hm : models ≠ []) :
    (SelfTest.run_startup_self_test models defaults oracle streamResp streamStt false r).raised
        = false ∧
    (SelfTest.run_startup_self_test models defaults oracle streamResp streamStt
        false r).readiness.self_test.status = (if (SelfTest.allChecksOf models defaults oracle
          streamResp streamStt).any (fun c => c.status == "error") then "degraded" else "ok") ∧
    ((SelfTest.run_startup_self_test models defaults oracle streamResp streamStt
        false r).readiness.self_test.status = "ok" ∨
     (SelfTest.run_startup_self_test models defaults oracle streamResp streamStt
        false r).readiness.self_test.status = "degraded") ∧
    ((SelfTest.run_startup_self_test models defaults oracle streamResp streamStt
        false r).readiness.self_test.status = "ok" ↔
      ∀ c ∈ (SelfTest.run_startup_self_test models defaults oracle streamResp streamStt
          false r).readiness.self_test.checks, c.status ≠ "error") ∧
    (SelfTest.run_startup_self_test models defaults oracle streamResp streamStt
        false r).readiness.self_test.checks.map CheckResult.name
      = SelfTest.expectedCheckNames models defaults := by
  have hne : models.isEmpty = false := by
    cases models with
    | nil => exact absurd rfl hm
    | cons m ms => rfl
  rw [run_startup_self_test_nonempty models defaults oracle streamResp streamStt false r hne]
  have hchecks :
      ((SelfTest.allChecksOf models defaults oracle streamResp streamStt).foldl
          (fun acc c => acc.record_self_test_check c.name c.status c.detail)
          r.begin_self_test).self_test.checks
        = SelfTest.allChecksOf models defaults oracle streamResp streamStt := by
    rw [record_fold_self_test]
    rfl
  cases hfail : (SelfTest.allChecksOf models defaults oracle streamResp streamStt).any
      (fun c => c.status == "error") with
  | true =>
      refine ⟨rfl, ?_, ?_, ?_, ?_⟩
      · dsimp only
        rw [(finish_self_test_fields _ _).1]
        decide
      · refine Or.inr ?_
        dsimp only
        rw [(finish_self_test_fields _ _).1]
        decide
      · dsimp only
        rw [(finish_self_test_fields _ _).1, (finish_self_test_fields _ _).2, hchecks]
        constructor
        · intro hcontra
          exact absurd hcontra (by decide)
        · intro hall
          obtain ⟨c, hc, herr⟩ := List.any_eq_true.mp hfail
          exact absurd (by simpa using herr) (hall c hc)
      · dsimp only
        rw [(finish_self_test_fields _ _).2, hchecks]
        exact allChecksOf_names models defaults oracle streamResp streamStt
  | false =>
      refine ⟨rfl, ?_, ?_, ?_, ?_⟩
      · dsimp only
        rw [(finish_self_test_fields _ _).1]
        decide
      · refine Or.inl ?_
        dsimp only
        rw [(finish_self_test_fields _ _).1]
        decide
      · dsimp only
        rw [(finish_self_test_fields _ _).1, (finish_self_test_fields _ _).2, hchecks]
        constructor
        · intro _ c hc herr
          have hany : (SelfTest.allChecksOf models defaults oracle streamResp streamStt).any
              (fun c => c.status == "error") = true :=
            List.any_eq_true.mpr ⟨c, hc, by simpa using herr⟩
          exact absurd hany (by simp [hfail])
        · intro _
          rfl
      · dsimp only
        rw [(finish_self_test_fields _ _).2, hchecks]
        exact allChecksOf_names models defaults oracle streamResp streamStt

/-! ## Claim C1: the strict rewrite and the required list -/

/-- C1 (the code evaluated at the failing input): the strict-mode
rewrite of `\x7b"type":"object","properties":\x7b"a":\x7b"type":"number"\x7d\x7d\x7d`
gains additionalProperties:false but NO "required" key at all — the
code only filters an existing required list and never creates one — so
the empty object validates against the rewritten schema with zero
violations (the repo's own test test_strict_schema_requires_keys
asserts the opposite), while `\x7b"a":1,"b":2\x7d` is still rejected via
additionalProperties:false. -/
theorem strict_rewrite_required_absent_at_example :
    make_openai_strict_schema 16 numberPropSchema
      = Json.obj [("type", Json.str ("object")),
                  ("properties", Json.obj [("a", Json.obj [("type", Json.str ("number"))])]),
                  ("additionalProperties", Json.bool false)] ∧
    validate_against_schema (Json.obj []) (make_openai_strict_schema 16 numberPropSchema) = [] ∧
    validate_against_schema (Json.obj [("a", Json.num 1), ("b", Json.num 2)])
        (make_openai_strict_schema 16 numberPropSchema) ≠ [] := by
  refine ⟨rfl, rfl, ?_⟩
  decide

/-! ## Claims C5 and C6: the enforcement loop -/

theorem postprocess_hello_world_parse_failed :
    postprocess_to_json_text ("hello world")
      = Except.error ("invalid_json: parse_failed") := rfl

theorem pv_hello_world_error (sch : Json) (fx : List (Json → Json × Bool)) :
    parse_and_validate_structured_output ("hello world") sch fx
      = Except.error ("invalid_json: parse_failed") := by
  unfold parse_and_validate_structured_output
  rw [postprocess_hello_world_parse_failed]

theorem loop_hello_world_base (S : Json) (F : List (Json → Json × Bool)) (a : Nat) :
    StructuredOutputEnforcer.loop (fun _ => RunResult.strPayload ("hello world")) S F 1 a
      = Except.error (("invalid_json: parse_failed"), a) := by
  simp only [StructuredOutputEnforcer.loop, extract_output_text]
  simp

theorem loop_hello_world_step (S : Json) (F : List (Json → Json × Bool)) (r a : Nat) :
    StructuredOutputEnforcer.loop (fun _ => RunResult.strPayload ("hello world")) S F (r + 2) a
      = StructuredOutputEnforcer.loop (fun _ => RunResult.strPayload ("hello world")) S F
          (r + 1) (a + 1) := by
  conv_lhs => rw [StructuredOutputEnforcer.loop]
  simp only [extract_output_text]
  simp only [show (("hello world" : String) = "") = False by simp, if_false]
  rw [pv_hello_world_error]

/-- C5: whatever the (effective and raw) object schema and enforcer
configuration, a backend that answers "hello world" on every attempt
makes StructuredOutputEnforcer.run perform exactly the fixed maximum
number of attempts (max(1, DEFAULT_MAX_ATTEMPTS) = 4) and then fail
terminally (StructuredOutputFailure) carrying the last failure reason
"invalid_json: parse_failed"; it never returns success. -/
theorem enforcer_hello_world_exhausts_attempts (effective_schema raw_schema : Json)
    (selected_id stt_model : String) :
    StructuredOutputEnforcer.run (fun _ => RunResult.strPayload ("hello world"))
        effective_schema raw_schema selected_id stt_model
      = Except.error (("invalid_json: parse_failed"), 4) := by
  unfold StructuredOutputEnforcer.run
  rw [show max 1 DEFAULT_MAX_ATTEMPTS = 2 + 2 from rfl, loop_hello_world_step]
  norm_num
  rw [show (3 : Nat) = 1 + 2 from rfl, loop_hello_world_step]
  norm_num
  rw [show (2 : Nat) = 0 + 2 from rfl, loop_hello_world_step]
  norm_num
  rw [loop_hello_world_base]

/-- C6: the raw backend text
`<thinking>plan</thinking>\x7b"a":1,\x7d` canonicalizes in a single
attempt — thinking tags stripped, JSON region extracted, parse fails on
the trailing comma, minimal repair strips it, reparse succeeds — to the
canonical text `\x7b"a":1\x7d`, which validates against the schema
`\x7b"type":"object","properties":\x7b"a":\x7b"type":"number"\x7d\x7d\x7d`
with no violation, so the enforcer succeeds with attempts = 1 (no
retry). -/
theorem enforcer_canonicalizes_thinking_trailing_comma :
    StructuredOutputEnforcer.run
        (fun _ => RunResult.strPayload ("<thinking>plan</thinking>\x7b\"a\":1,\x7d"))
        numberPropSchema numberPropSchema ("llm-x") ("stt-x")
      = Except.ok ⟨"\x7b\"a\":1\x7d", Json.obj [("a", Json.num 1)], 1⟩ := rfl

/-- Witness for C7: a one-model registry whose single check fails —
lenient mode records the failure, ends degraded, and does not raise. -/
theorem self_test_lenient_ok_or_degraded_witness :
    (SelfTest.run_startup_self_test [⟨"m1", "responses", false⟩] [("responses", "m1")]
        (fun _ _ => false) (fun _ => true) (fun _ => true) false ReadinessState.init).raised
      = false ∧
    ((SelfTest.run_startup_self_test [⟨"m1", "responses", false⟩] [("responses", "m1")]
        (fun _ _ => false) (fun _ => true) (fun _ => true) false
        ReadinessState.init).readiness.self_test.status = "ok" ∨
     (SelfTest.run_startup_self_test [⟨"m1", "responses", false⟩] [("responses", "m1")]
        (fun _ _ => false) (fun _ => true) (fun _ => true) false
        ReadinessState.init).readiness.self_test.status = "degraded") :=
  have h := self_test_lenient_ok_or_degraded [⟨"m1", "responses", false⟩]
    [("responses", "m1")] (fun _ _ => false) (fun _ => true) (fun _ => true)
    ReadinessState.init (by decide)
  ⟨h.1, h.2.2.1⟩

/-! ## Claim C10: heap lemmas -/

theorem lookupList_append_single (l : List (Nat × HObj)) (n b : Nat) (o : HObj)
    (hne : ¬ (n = b)) :
    lookupList (l ++ [(n, o)]) b = lookupList l b := by
  induction l with
  | nil => simp [lookupList, hne]
  | cons p rest ih =>
      by_cases hpb : p.1 = b <;> simp [lookupList, hpb, ih]

theorem lookup_set_ne (h : Heap) (a b : Nat) (o : HObj) (hne : b ≠ a) :
    (h.set a o).lookup b = h.lookup b := by
  unfold Heap.set Heap.lookup
  induction h.store with
  | nil => rfl
  | cons p rest ih =>
      simp only [List.map_cons]
      by_cases hpa : p.1 = a
      · rw [if_pos hpa]
        have h1 : ¬ ((a, o).1 = b) := by simpa using Ne.symm hne
        have h2 : ¬ (p.1 = b) := by rw [hpa]; simpa using Ne.symm hne
        simp only [lookupList, if_neg h1, if_neg h2]
        exact ih
      · rw [if_neg hpa]
        simp only [lookupList]
        by_cases hpb : p.1 = b
        · rw [if_pos hpb, if_pos hpb]
        · rw [if_neg hpb, if_neg hpb]
          exact ih

theorem lookup_alloc_of_lt (h : Heap) (o : HObj) (b : Nat) (hb : b < h.next) :
    ((h.alloc o).1).lookup b = h.lookup b := by
  unfold Heap.alloc Heap.lookup
  rw [lookupList_append_single]
  omega

theorem lookupList_append_self (l : List (Nat × HObj)) (n : Nat) (o : HObj)
    (hb : ∀ p ∈ l, p.1 < n) :
    lookupList (l ++ [(n, o)]) n = some o := by
  induction l with
  | nil => simp [lookupList]
  | cons p rest ih =>
      have hp : p.1 < n := hb p (by simp)
      have hne : ¬ (p.1 = n) := by omega
      simp only [List.cons_append, lookupList, hne, if_false]
      exact ih (fun q hq => hb q (by simp [hq]))

theorem lookup_alloc_self (h : Heap) (o : HObj) (hwf : Heap.WF h) :
    ((h.alloc o).1).lookup h.next = some o :=
  lookupList_append_self h.store h.next o hwf

theorem wf_set (h : Heap) (a : Nat) (o : HObj) (hwf : Heap.WF h) : Heap.WF (h.set a o) := by
  intro q hq
  unfold Heap.set at hq
  simp only [List.mem_map] at hq
  obtain ⟨p, hp, hfq⟩ := hq
  have := hwf p hp
  by_cases hpa : p.1 = a
  · rw [if_pos hpa] at hfq
    rw [← hfq]
    simpa [← hpa] using this
  · rw [if_neg hpa] at hfq
    rw [← hfq]
    exact this

theorem wf_alloc (h : Heap) (o : HObj) (hwf : Heap.WF h) : Heap.WF (h.alloc o).1 := by
  intro q hq
  unfold Heap.alloc at hq
  simp only [List.mem_append, List.mem_singleton] at hq
  rcases hq with hq | hq
  · have := hwf q hq
    simp only [Heap.alloc]
    omega
  · subst hq
    simp only [Heap.alloc]
    omega

theorem heapExtends_refl (h : Heap) : HeapExtends h h := ⟨le_refl _, fun _ _ => rfl⟩

theorem heapExtends_trans (h1 h2 h3 : Heap) (a : HeapExtends h1 h2) (b : HeapExtends h2 h3) :
    HeapExtends h1 h3 :=
  ⟨le_trans a.1 b.1, fun x hx => by rw [b.2 x (lt_of_lt_of_le hx a.1), a.2 x hx]⟩

theorem heapExtends_alloc (h : Heap) (o : HObj) : HeapExtends h (h.alloc o).1 :=
  ⟨by simp [Heap.alloc], fun b hb => lookup_alloc_of_lt h o b hb⟩

theorem heapExtendsExcept_of_extends (h h' : Heap) (d : Nat) (he : HeapExtends h h') :
    HeapExtendsExcept h h' d :=
  ⟨he.1, fun b hb _ => he.2 b hb⟩

theorem heapExtendsExcept_set (h : Heap) (d : Nat) (o : HObj) :
    HeapExtendsExcept h (h.set d o) d :=
  ⟨le_refl _, fun b _ hbd => lookup_set_ne h d b o hbd⟩

theorem heapExtendsExcept_trans (h1 h2 h3 : Heap) (d : Nat)
    (a : HeapExtendsExcept h1 h2 d) (b : HeapExtendsExcept h2 h3 d) :
    HeapExtendsExcept h1 h3 d :=
  ⟨le_trans a.1 b.1, fun x hx hxd => by
    rw [b.2 x (lt_of_lt_of_le hx a.1) hxd, a.2 x hx hxd]⟩

theorem wf_hDictSet (h : Heap) (d : Nat) (k : String) (v : Nat) (hwf : Heap.WF h) :
    Heap.WF (hDictSet h d k v) := by
  unfold hDictSet
  cases h.lookup d with
  | none => exact hwf
  | some o =>
      cases o with
      | scalar _ => exact hwf
      | list _ => exact hwf
      | dict es => exact wf_set h d _ hwf

theorem heapExtendsExcept_hDictSet (h : Heap) (d : Nat) (k : String) (v : Nat) :
    HeapExtendsExcept h (hDictSet h d k v) d := by
  unfold hDictSet
  cases h.lookup d with
  | none => exact heapExtendsExcept_of_extends _ _ _ (heapExtends_refl h)
  | some o =>
      cases o with
      | scalar _ => exact heapExtendsExcept_of_extends _ _ _ (heapExtends_refl h)
      | list _ => exact heapExtendsExcept_of_extends _ _ _ (heapExtends_refl h)
      | dict es => exact heapExtendsExcept_set h d _

/-- The entry-list comprehension preserves the frame contract of its
value transform. -/
theorem heapMapEntries_frame (g : Heap → Nat → Option (Heap × Nat)) (hg : GFrame g) :
    EFrame (heapMapEntries g) := by
  intro h es
  induction es generalizing h with
  | nil =>
      intro h' es' hwf hrun
      simp only [heapMapEntries, Option.some.injEq, Prod.mk.injEq] at hrun
      obtain ⟨hh, _⟩ := hrun
      subst hh
      exact ⟨hwf, heapExtends_refl h⟩
  | cons kv rest ih =>
      intro h' es' hwf hrun
      obtain ⟨k, v⟩ := kv
      simp only [heapMapEntries] at hrun
      cases hv : g h v with
      | none => rw [hv] at hrun; exact absurd hrun (by simp)
      | some pv =>
          rw [hv] at hrun
          simp only [Option.some_bind] at hrun
          cases hr2 : heapMapEntries g pv.1 rest with
          | none => rw [hr2] at hrun; exact absurd hrun (by simp)
          | some pr =>
              rw [hr2] at hrun
              simp only [Option.map_some', Option.some.injEq, Prod.mk.injEq] at hrun
              obtain ⟨hh, _⟩ := hrun
              obtain ⟨hwf1, hext1, _⟩ := hg h v pv.1 pv.2 hwf hv
              obtain ⟨hwf2, hext2⟩ := ih pv.1 pr.1 pr.2 hwf1 hr2
              subst hh
              exact ⟨hwf2, heapExtends_trans _ _ _ hext1 hext2⟩

/-- The element-list comprehension preserves the frame contract of its
value transform. -/
theorem heapMapElems_frame (g : Heap → Nat → Option (Heap × Nat)) (hg : GFrame g) :
    XFrame (heapMapElems g) := by
  intro h xs
  induction xs generalizing h with
  | nil =>
      intro h' xs' hwf hrun
      simp only [heapMapElems, Option.some.injEq, Prod.mk.injEq] at hrun
      obtain ⟨hh, _⟩ := hrun
      subst hh
      exact ⟨hwf, heapExtends_refl h⟩
  | cons v rest ih =>
      intro h' xs' hwf hrun
      simp only [heapMapElems] at hrun
      cases hv : g h v with
      | none => rw [hv] at hrun; exact absurd hrun (by simp)
      | some pv =>
          rw [hv] at hrun
          simp only [Option.some_bind] at hrun
          cases hr2 : heapMapElems g pv.1 rest with
          | none => rw [hr2] at hrun; exact absurd hrun (by simp)
          | some pr =>
              rw [hr2] at hrun
              simp only [Option.map_some', Option.some.injEq, Prod.mk.injEq] at hrun
              obtain ⟨hh, _⟩ := hrun
              obtain ⟨hwf1, hext1, _⟩ := hg h v pv.1 pv.2 hwf hv
              obtain ⟨hwf2, hext2⟩ := ih pv.1 pr.1 pr.2 hwf1 hr2
              subst hh
              exact ⟨hwf2, heapExtends_trans _ _ _ hext1 hext2⟩

/-- deepcopy satisfies the frame contract: it preserves well-formedness,
never touches a pre-existing address, and returns its own scalar
argument or a fresh container address. -/
theorem deepcopyF_frame : ∀ f : Nat, GFrame (deepcopyF f) := by
  intro f
  induction f with
  | zero =>
      intro h a h' r hwf hrun
      simp [deepcopyF] at hrun
  | succ f ih =>
      intro h a h' r hwf hrun
      simp only [deepcopyF] at hrun
      split at hrun
      · exact absurd hrun (by simp)
      · rename_i v heq
        simp only [Option.some.injEq, Prod.mk.injEq] at hrun
        obtain ⟨hh, hr⟩ := hrun
        subst hh; subst hr
        exact ⟨hwf, heapExtends_refl h, Or.inl ⟨v, heq, rfl⟩⟩
      · rename_i es heq
        cases hde : heapMapEntries (deepcopyF f) h es with
        | none => rw [hde] at hrun; exact absurd hrun (by simp)
        | some pe =>
            rw [hde] at hrun
            simp only [Option.map_some', Option.some.injEq] at hrun
            obtain ⟨hwf1, hext1⟩ := heapMapEntries_frame _ ih h es pe.1 pe.2 hwf hde
            have hh' : h' = (pe.1.alloc (HObj.dict pe.2)).1 := (congrArg Prod.fst hrun).symm
            have hr : r = pe.1.next := (congrArg Prod.snd hrun).symm
            subst hh'
            refine ⟨wf_alloc pe.1 _ hwf1,
              heapExtends_trans _ _ _ hext1 (heapExtends_alloc pe.1 _), ?_⟩
            right
            rw [hr]
            exact hext1.1
      · rename_i xs heq
        cases hde : heapMapElems (deepcopyF f) h xs with
        | none => rw [hde] at hrun; exact absurd hrun (by simp)
        | some pe =>
            rw [hde] at hrun
            simp only [Option.map_some', Option.some.injEq] at hrun
            obtain ⟨hwf1, hext1⟩ := heapMapElems_frame _ ih h xs pe.1 pe.2 hwf hde
            have hh' : h' = (pe.1.alloc (HObj.list pe.2)).1 := (congrArg Prod.fst hrun).symm
            have hr : r = pe.1.next := (congrArg Prod.snd hrun).symm
            subst hh'
            refine ⟨wf_alloc pe.1 _ hwf1,
              heapExtends_trans _ _ _ hext1 (heapExtends_alloc pe.1 _), ?_⟩
            right
            rw [hr]
            exact hext1.1

theorem requiredStep_wf (h : Heap) (d : Nat) (ks : List String) (hwf : Heap.WF h) :
    Heap.WF (requiredStep h d ks) := by
  unfold requiredStep
  split
  · split
    · exact wf_hDictSet _ _ _ _ (wf_alloc _ _ hwf)
    · exact hwf
  · exact hwf

theorem requiredStep_extExc (h : Heap) (d : Nat) (ks : List String) :
    HeapExtendsExcept h (requiredStep h d ks) d := by
  unfold requiredStep
  split
  · split
    · exact heapExtendsExcept_trans _ _ _ _
        (heapExtendsExcept_of_extends _ _ _ (heapExtends_alloc _ _))
        (heapExtendsExcept_hDictSet _ _ _ _)
    · exact heapExtendsExcept_of_extends _ _ _ (heapExtends_refl h)
  · exact heapExtendsExcept_of_extends _ _ _ (heapExtends_refl h)

theorem setdefaultAPStep_wf (h : Heap) (d : Nat) (hwf : Heap.WF h) :
    Heap.WF (setdefaultAPStep h d) := by
  unfold setdefaultAPStep
  split
  · exact hwf
  · exact wf_hDictSet _ _ _ _ (wf_alloc _ _ hwf)

theorem setdefaultAPStep_extExc (h : Heap) (d : Nat) :
    HeapExtendsExcept h (setdefaultAPStep h d) d := by
  unfold setdefaultAPStep
  split
  · exact heapExtendsExcept_of_extends _ _ _ (heapExtends_refl h)
  · exact heapExtendsExcept_trans _ _ _ _
      (heapExtendsExcept_of_extends _ _ _ (heapExtends_alloc _ _))
      (heapExtendsExcept_hDictSet _ _ _ _)

theorem heapExtends_through_except (h hA hB : Heap) (d : Nat)
    (h1 : HeapExtends h hA) (h2 : HeapExtendsExcept hA hB d) (hd : h.next ≤ d) :
    HeapExtends h hB :=
  ⟨le_trans h1.1 h2.1, fun b hb => by
    rw [h2.2 b (lt_of_lt_of_le hb h1.1) (by omega), h1.2 b hb]⟩

/-- The properties block only mutates the node dict at d: it preserves
well-formedness and every other pre-existing address. -/
theorem applyPropsBlockW_frame
    (gE : Heap → List (String × Nat) → Option (Heap × List (String × Nat)))
    (hgE : EFrame gE) :
    ∀ h d h', Heap.WF h → applyPropsBlockW gE h d = some h' →
      Heap.WF h' ∧ HeapExtendsExcept h h' d := by
  intro h d h' hwf hrun
  simp only [applyPropsBlockW] at hrun
  split at hrun
  · simp only [Option.some.injEq] at hrun
    subst hrun
    exact ⟨hwf, heapExtendsExcept_of_extends _ _ _ (heapExtends_refl h)⟩
  · split at hrun
    · rename_i props heq2
      cases he : gE h props with
      | none => rw [he] at hrun; exact absurd hrun (by simp)
      | some pp =>
          rw [he] at hrun
          simp only [Option.some_bind, Option.some.injEq] at hrun
          obtain ⟨hwf1, hext1⟩ := hgE h props pp.1 pp.2 hwf he
          have hwf2 : Heap.WF (pp.1.alloc (HObj.dict pp.2)).1 := wf_alloc pp.1 _ hwf1
          subst hrun
          have hA : HeapExtends h (pp.1.alloc (HObj.dict pp.2)).1 :=
            heapExtends_trans _ _ _ hext1 (heapExtends_alloc pp.1 (HObj.dict pp.2))
          have hB : HeapExtendsExcept (pp.1.alloc (HObj.dict pp.2)).1
              (hDictSet (pp.1.alloc (HObj.dict pp.2)).1 d ("properties")
                (pp.1.alloc (HObj.dict pp.2)).2) d :=
            heapExtendsExcept_hDictSet _ _ _ _
          have hC := requiredStep_extExc
            (hDictSet (pp.1.alloc (HObj.dict pp.2)).1 d ("properties")
              (pp.1.alloc (HObj.dict pp.2)).2) d (pp.2.map Prod.fst)
          have hD := setdefaultAPStep_extExc
            (requiredStep (hDictSet (pp.1.alloc (HObj.dict pp.2)).1 d ("properties")
              (pp.1.alloc (HObj.dict pp.2)).2) d (pp.2.map Prod.fst)) d
          exact ⟨setdefaultAPStep_wf _ _
              (requiredStep_wf _ _ _ (wf_hDictSet _ _ _ _ hwf2)),
            heapExtendsExcept_trans _ _ _ _
              (heapExtendsExcept_of_extends _ _ _ hA)
              (heapExtendsExcept_trans _ _ _ _ hB
                (heapExtendsExcept_trans _ _ _ _ hC hD))⟩
    · simp only [Option.some.injEq] at hrun
      subst hrun
      exact ⟨hwf, heapExtendsExcept_of_extends _ _ _ (heapExtends_refl h)⟩

/-- The items block only mutates the node dict at d. -/
theorem applyItemsBlockW_frame (gV : Heap → Nat → Option (Heap × Nat)) (hgV : GFrame gV) :
    ∀ h d h', Heap.WF h → applyItemsBlockW gV h d = some h' →
      Heap.WF h' ∧ HeapExtendsExcept h h' d := by
  intro h d h' hwf hrun
  simp only [applyItemsBlockW] at hrun
  split at hrun
  · simp only [Option.some.injEq] at hrun
    subst hrun
    exact ⟨hwf, heapExtendsExcept_of_extends _ _ _ (heapExtends_refl h)⟩
  · split at hrun
    · rename_i o1 iAddr heq1 o2 itemFields heq2
      cases ha : gV h iAddr with
      | none => rw [ha] at hrun; exact absurd hrun (by simp)
      | some pi2 =>
          rw [ha] at hrun
          simp only [Option.map_some', Option.some.injEq] at hrun
          obtain ⟨hwf1, hext1, _⟩ := hgV h iAddr pi2.1 pi2.2 hwf ha
          subst hrun
          exact ⟨wf_hDictSet _ _ _ _ hwf1,
            heapExtendsExcept_trans _ _ _ _
              (heapExtendsExcept_of_extends _ _ _ hext1)
              (heapExtendsExcept_hDictSet _ _ _ _)⟩
    · simp only [Option.some.injEq] at hrun
      subst hrun
      exact ⟨hwf, heapExtendsExcept_of_extends _ _ _ (heapExtends_refl h)⟩

/-- A composition-keyword block only mutates the node dict at d. -/
theorem applyBranchBlockW_frame (gX : Heap → List Nat → Option (Heap × List Nat))
    (hgX : XFrame gX) :
    ∀ h d key h', Heap.WF h → applyBranchBlockW gX h d key = some h' →
      Heap.WF h' ∧ HeapExtendsExcept h h' d := by
  intro h d key h' hwf hrun
  simp only [applyBranchBlockW] at hrun
  split at hrun
  · simp only [Option.some.injEq] at hrun
    subst hrun
    exact ⟨hwf, heapExtendsExcept_of_extends _ _ _ (heapExtends_refl h)⟩
  · split at hrun
    · rename_i xs heq2
      cases hx : gX h xs with
      | none => rw [hx] at hrun; exact absurd hrun (by simp)
      | some pb =>
          rw [hx] at hrun
          simp only [Option.map_some', Option.some.injEq] at hrun
          obtain ⟨hwf1, hext1⟩ := hgX h xs pb.1 pb.2 hwf hx
          subst hrun
          exact ⟨wf_hDictSet _ _ _ _ (wf_alloc pb.1 _ hwf1),
            heapExtendsExcept_trans _ _ _ _
              (heapExtendsExcept_of_extends _ _ _
                (heapExtends_trans _ _ _ hext1 (heapExtends_alloc pb.1 _)))
              (heapExtendsExcept_hDictSet _ _ _ _)⟩
    · simp only [Option.some.injEq] at hrun
      subst hrun
      exact ⟨hwf, heapExtendsExcept_of_extends _ _ _ (heapExtends_refl h)⟩

/-- _apply satisfies the frame contract: every mutation targets a dict
allocated during the call itself, so pre-existing addresses are
untouched. -/
theorem applyH_frame : ∀ f : Nat, GFrame (applyH f) := by
  intro f
  induction f with
  | zero =>
      intro h a h' r hwf hrun
      simp [applyH] at hrun
  | succ f ih =>
      have ihE : EFrame (heapMapEntries (applyH f)) := heapMapEntries_frame _ ih
      have ihX : XFrame (heapMapElems (applyH f)) := heapMapElems_frame _ ih
      have ihP := applyPropsBlockW_frame _ ihE
      have ihI := applyItemsBlockW_frame _ ih
      have ihB := applyBranchBlockW_frame _ ihX
      intro h a h' r hwf hrun
      simp only [applyH] at hrun
      split at hrun
      · exact absurd hrun (by simp)
      · rename_i v heq
        simp only [Option.some.injEq, Prod.mk.injEq] at hrun
        obtain ⟨hh, hr⟩ := hrun
        subst hh; subst hr
        exact ⟨hwf, heapExtends_refl h, Or.inl ⟨v, heq, rfl⟩⟩
      · rename_i xs heq
        cases hx : heapMapElems (applyH f) h xs with
        | none => rw [hx] at hrun; exact absurd hrun (by simp)
        | some pe =>
            rw [hx] at hrun
            simp only [Option.map_some', Option.some.injEq] at hrun
            obtain ⟨hwf1, hext1⟩ := ihX h xs pe.1 pe.2 hwf hx
            have hh' : h' = (pe.1.alloc (HObj.list pe.2)).1 := (congrArg Prod.fst hrun).symm
            have hr : r = pe.1.next := (congrArg Prod.snd hrun).symm
            subst hh'
            refine ⟨wf_alloc pe.1 _ hwf1,
              heapExtends_trans _ _ _ hext1 (heapExtends_alloc pe.1 _), ?_⟩
            right
            rw [hr]
            exact hext1.1
      · rename_i es heq
        cases he : heapMapEntries (applyH f) h es with
        | none => rw [he] at hrun; exact absurd hrun (by simp)
        | some pe =>
            rw [he] at hrun
            simp only [Option.some_bind] at hrun
            obtain ⟨hwf1, hext1⟩ := ihE h es pe.1 pe.2 hwf he
            have hwf2 : Heap.WF (pe.1.alloc (HObj.dict pe.2)).1 := wf_alloc pe.1 _ hwf1
            have hext2 : HeapExtends h (pe.1.alloc (HObj.dict pe.2)).1 :=
              heapExtends_trans _ _ _ hext1 (heapExtends_alloc pe.1 _)
            have hd : h.next ≤ (pe.1.alloc (HObj.dict pe.2)).2 := hext1.1
            cases hp : applyPropsBlockW (heapMapEntries (applyH f))
                (pe.1.alloc (HObj.dict pe.2)).1 (pe.1.alloc (HObj.dict pe.2)).2 with
            | none => rw [hp] at hrun; exact absurd hrun (by simp)
            | some h3 =>
                rw [hp] at hrun
                simp only [Option.some_bind] at hrun
                obtain ⟨hwf3, hexc3⟩ := ihP _ _ _ hwf2 hp
                cases hi : applyItemsBlockW (applyH f) h3 (pe.1.alloc (HObj.dict pe.2)).2 with
                | none => rw [hi] at hrun; exact absurd hrun (by simp)
                | some h4 =>
                    rw [hi] at hrun
                    simp only [Option.some_bind] at hrun
                    obtain ⟨hwf4, hexc4⟩ := ihI _ _ _ hwf3 hi
                    cases hb1 : applyBranchBlockW (heapMapElems (applyH f)) h4
                        (pe.1.alloc (HObj.dict pe.2)).2 ("anyOf") with
                    | none => rw [hb1] at hrun; exact absurd hrun (by simp)
                    | some h5 =>
                        rw [hb1] at hrun
                        simp only [Option.some_bind] at hrun
                        obtain ⟨hwf5, hexc5⟩ := ihB _ _ _ _ hwf4 hb1
                        cases hb2 : applyBranchBlockW (heapMapElems (applyH f)) h5
                            (pe.1.alloc (HObj.dict pe.2)).2 ("oneOf") with
                        | none => rw [hb2] at hrun; exact absurd hrun (by simp)
                        | some h6 =>
                            rw [hb2] at hrun
                            simp only [Option.some_bind] at hrun
                            obtain ⟨hwf6, hexc6⟩ := ihB _ _ _ _ hwf5 hb2
                            cases hb3 : applyBranchBlockW (heapMapElems (applyH f)) h6
                                (pe.1.alloc (HObj.dict pe.2)).2 ("allOf") with
                            | none => rw [hb3] at hrun; exact absurd hrun (by simp)
                            | some h7 =>
                                rw [hb3] at hrun
                                simp only [Option.map_some', Option.some.injEq,
                                  Prod.mk.injEq] at hrun
                                obtain ⟨hwf7, hexc7⟩ := ihB _ _ _ _ hwf6 hb3
                                obtain ⟨hh7, hr⟩ := hrun
                                subst hh7
                                have hexcAll : HeapExtendsExcept
                                    (pe.1.alloc (HObj.dict pe.2)).1 h7
                                    (pe.1.alloc (HObj.dict pe.2)).2 :=
                                  heapExtendsExcept_trans _ _ _ _ hexc3
                                    (heapExtendsExcept_trans _ _ _ _ hexc4
                                      (heapExtendsExcept_trans _ _ _ _ hexc5
                                        (heapExtendsExcept_trans _ _ _ _ hexc6 hexc7)))
                                refine ⟨hwf7,
                                  heapExtends_through_except _ _ _ _ hext2 hexcAll hd, ?_⟩
                                right
                                rw [← hr]
                                exact hd

theorem lookupList_mem (l : List (Nat × HObj)) (a : Nat) (o : HObj)
    (h : lookupList l a = some o) : (a, o) ∈ l := by
  induction l with
  | nil => simp [lookupList] at h
  | cons p rest ih =>
      simp only [lookupList] at h
      by_cases hpa : p.1 = a
      · rw [if_pos hpa] at h
        simp only [Option.some.injEq] at h
        have hp : (a, o) = p := by
          cases p
          simp_all
        rw [hp]
        exact List.mem_cons_self _ _
      · rw [if_neg hpa] at h
        exact List.mem_cons_of_mem _ (ih h)

/-- Reading back a JSON value below the old allocation bound sees only
preserved addresses, for an address-closed input heap. -/
theorem readBackF_congr (h h' : Heap) (hc : Heap.Closed h)
    (hpres : ∀ b, b < h.next → h'.lookup b = h.lookup b) :
    ∀ f b, b < h.next → readBackF f h' b = readBackF f h b := by
  intro f
  induction f with
  | zero => intro b _; rfl
  | succ f ih =>
      intro b hb
      simp only [readBackF]
      rw [hpres b hb]
      cases hl : h.lookup b with
      | none => rfl
      | some o =>
          cases o with
          | scalar v => rfl
          | dict es =>
              have hmem : (b, HObj.dict es) ∈ h.store := lookupList_mem _ _ _ hl
              simp only [Json.obj.injEq]
              apply List.map_congr_left
              intro kv hkv
              have hlt : kv.2 < h.next := by
                refine hc _ hmem kv.2 ?_
                simp only [HObj.addrs]
                exact List.mem_map.mpr ⟨kv, hkv, rfl⟩
              rw [ih kv.2 hlt]
          | list xs =>
              have hmem : (b, HObj.list xs) ∈ h.store := lookupList_mem _ _ _ hl
              simp only [Json.arr.injEq]
              apply List.map_congr_left
              intro x hx
              have hlt : x < h.next := hc _ hmem x hx
              exact ih x hlt

/-- C10: make_openai_strict_schema never mutates its argument.  On the
heap model: for a well-formed, address-closed heap, a successful run of
the rewrite leaves every pre-existing address mapping to the same
object (so the caller-held raw schema — e.g. the one
detect_structured_mode stores in StructuredFormatConfig.schema — reads
back unchanged), and when the argument is a dict the returned root is a
freshly built object distinct from every pre-existing address. -/
theorem make_openai_strict_schema_pure (fuel : Nat) (h : Heap) (a : Nat) (h' : Heap) (r : Nat)
    (hwf : Heap.WF h) (hcl : Heap.Closed h)
    (hrun : make_openai_strict_schemaH fuel h a = some (h', r)) :
    (∀ b, b < h.next → h'.lookup b = h.lookup b) ∧
    (∀ p ∈ h.store, h'.lookup p.1 = h.lookup p.1) ∧
    (∀ f b, b < h.next → readBackF f h' b = readBackF f h b) ∧
    (∀ es, h.lookup a = some (HObj.dict es) → h.next ≤ r ∧ ∀ p ∈ h.store, p.1 ≠ r) := by
  unfold make_openai_strict_schemaH at hrun
  cases hdc : deepcopyF fuel h a with
  | none => rw [hdc] at hrun; exact absurd hrun (by simp)
  | some pc =>
      rw [hdc] at hrun
      simp only [Option.some_bind] at hrun
      obtain ⟨hwf1, hext1, hclass1⟩ := deepcopyF_frame fuel h a pc.1 pc.2 hwf hdc
      obtain ⟨hwf2, hext2, hclass2⟩ := applyH_frame fuel pc.1 pc.2 h' r hwf1 hrun
      have hext : HeapExtends h h' := heapExtends_trans _ _ _ hext1 hext2
      refine ⟨hext.2, ?_, ?_, ?_⟩
      · intro p hp
        exact hext.2 p.1 (hwf p hp)
      · exact readBackF_congr h h' hcl hext.2
      · intro es hes
        have hr : h.next ≤ r := by
          rcases hclass1 with ⟨v, hv, _⟩ | hge
          · rw [hes] at hv
            simp at hv
          · rcases hclass2 with ⟨w, _, hra⟩ | hge2
            · rw [hra]
              exact hge
            · exact le_trans hext1.1 hge2
        refine ⟨hr, ?_⟩
        intro p hp
        have := hwf p hp
        omega

/-- Witness for C10 at a one-dict heap: the rewrite of the dict at
address 0 returns the fresh address 2 and leaves address 0 unchanged. -/
theorem make_openai_strict_schema_pure_witness :
    (∀ b, b < c10Heap.next → c10OutHeap.lookup b = c10Heap.lookup b) ∧
    (∀ p ∈ c10Heap.store, c10OutHeap.lookup p.1 = c10Heap.lookup p.1) ∧
    (∀ f b, b < c10Heap.next → readBackF f c10OutHeap b = readBackF f c10Heap b) ∧
    (∀ es, c10Heap.lookup 0 = some (HObj.dict es) →
       c10Heap.next ≤ 2 ∧ ∀ p ∈ c10Heap.store, p.1 ≠ 2) :=
  make_openai_strict_schema_pure 8 c10Heap 0 c10OutHeap 2
    (by unfold Heap.WF; decide) (by unfold Heap.Closed; decide) (by decide)

end LocalRuntime
